import Mathlib

/-!
Verification of the x402 payment-handshake core of the blockrun Go SDK.

The development is a shallow embedding of the Go source:

* `Json` models the JSON documents exchanged on the wire; Go's `map[string]any`
  values are represented in canonical form (fields sorted by key, later
  duplicates winning), matching Go's unordered maps whose `json.Marshal`
  output is key-sorted.  JSON numbers are modelled as rationals (Go decodes
  them to `float64`; none of the verified claims depends on rounding).
* `renderJson` models `json.Marshal` restricted to the documents the program
  actually produces (ASCII text; the characters needing `\uXXXX` escapes never
  occur in them), and the fuel-based `parseJ` models the decoding half of
  `encoding/json`.
* `encodeB64` / `decodeB64` model `encoding/base64` `StdEncoding`.
* The external go-ethereum primitives (keccak, secp256k1 signing, entropy) are
  parameters of a `CryptoEnv`; everything the repository itself computes around
  them is embedded directly.
* `requestWithPayment` / `handlePaymentAndRetry` are embedded as functions of
  an explicit transport (the list of HTTP responses the server will give),
  returning the outcome, the updated client session state and the trace of
  issued requests.

Machine integers (`int`, `int64`) are modelled as `Int`, except where a claim
quantifies over a domain that reaches the `int64` boundary: the
`validAfter`/`validBefore` timestamp arithmetic of `CreatePaymentPayload` goes
through `wrapInt64`, the two's-complement wrap Go's `int64` addition performs.
-/

namespace BlockRun

/-- JSON documents as exchanged on the wire (model of Go's `encoding/json`
value space; `map[string]any` values appear as `obj` in canonical form). -/
inductive Json : Type where
  | null : Json
  | bool (b : Bool) : Json
  | num (q : ℚ) : Json
  | str (s : String) : Json
  | arr (elems : List Json) : Json
  | obj (fields : List (String × Json)) : Json

mutual

def Json.beq : Json → Json → Bool
  | .null, .null => true
  | .bool a, .bool b => a == b
  | .num a, .num b => a == b
  | .str a, .str b => a == b
  | .arr a, .arr b => Json.beqList a b
  | .obj a, .obj b => Json.beqFields a b
  | _, _ => false

def Json.beqList : List Json → List Json → Bool
  | [], [] => true
  | x :: xs, y :: ys => Json.beq x y && Json.beqList xs ys
  | _, _ => false

def Json.beqFields : List (String × Json) → List (String × Json) → Bool
  | [], [] => true
  | (ka, va) :: resta, (kb, vb) :: restb =>
      ka == kb && Json.beq va vb && Json.beqFields resta restb
  | _, _ => false

end

mutual

theorem Json.beq_iff_eq : ∀ a b : Json, Json.beq a b = true ↔ a = b
  | .null, .null => by simp [Json.beq]
  | .bool _, .bool _ => by simp [Json.beq]
  | .num _, .num _ => by simp [Json.beq]
  | .str _, .str _ => by simp [Json.beq]
  | .arr x, .arr y => by simp [Json.beq, Json.beqList_iff_eq x y]
  | .obj x, .obj y => by simp [Json.beq, Json.beqFields_iff_eq x y]
  | .null, .bool _ | .null, .num _ | .null, .str _ | .null, .arr _ | .null, .obj _
  | .bool _, .null | .bool _, .num _ | .bool _, .str _ | .bool _, .arr _ | .bool _, .obj _
  | .num _, .null | .num _, .bool _ | .num _, .str _ | .num _, .arr _ | .num _, .obj _
  | .str _, .null | .str _, .bool _ | .str _, .num _ | .str _, .arr _ | .str _, .obj _
  | .arr _, .null | .arr _, .bool _ | .arr _, .num _ | .arr _, .str _ | .arr _, .obj _
  | .obj _, .null | .obj _, .bool _ | .obj _, .num _ | .obj _, .str _ | .obj _, .arr _ => by
      simp [Json.beq]

theorem Json.beqList_iff_eq : ∀ xs ys : List Json, Json.beqList xs ys = true ↔ xs = ys
  | [], [] => by simp [Json.beqList]
  | x :: xs, y :: ys => by simp [Json.beqList, Json.beq_iff_eq x y, Json.beqList_iff_eq xs ys]
  | [], _ :: _ => by simp [Json.beqList]
  | _ :: _, [] => by simp [Json.beqList]

theorem Json.beqFields_iff_eq :
    ∀ xs ys : List (String × Json), Json.beqFields xs ys = true ↔ xs = ys
  | [], [] => by simp [Json.beqFields]
  | (ka, va) :: resta, (kb, vb) :: restb => by
      simp [Json.beqFields, Json.beq_iff_eq va vb, Json.beqFields_iff_eq resta restb,
        and_assoc]
  | [], _ :: _ => by simp [Json.beqFields]
  | _ :: _, [] => by simp [Json.beqFields]

end

instance : DecidableEq Json := fun a b =>
  decidable_of_iff (Json.beq a b = true) (Json.beq_iff_eq a b)

/-! Characters and decimal digits. -/

def wsChar (c : Char) : Bool :=
  c = ' ' || c = '\t' || c = '\n' || c = '\r'

def isDigitChar (c : Char) : Bool :=
  48 ≤ c.toNat && c.toNat ≤ 57

def digitChar : Nat → Char
  | 0 => '0'
  | 1 => '1'
  | 2 => '2'
  | 3 => '3'
  | 4 => '4'
  | 5 => '5'
  | 6 => '6'
  | 7 => '7'
  | 8 => '8'
  | 9 => '9'
  | _ => '*'

/-- Fuel-based digit production (structural recursion, so that the kernel can
evaluate it; the fuel is always sufficient at the call site below). -/
def natToCharsAux : Nat → Nat → List Char
  | 0, _ => []
  | fuel + 1, n =>
      if n < 10 then [digitChar n]
      else natToCharsAux fuel (n / 10) ++ [digitChar (n % 10)]

/-- Decimal digits of a natural number, most significant first
(model of the digit production inside Go's `strconv`/`fmt`). -/
def natToChars (n : Nat) : List Char :=
  natToCharsAux (n + 1) n

/-- Decimal rendering of an integer, as produced by Go's
`strconv.FormatInt(i, 10)` and by `json.Marshal` on integer values. -/
def intToChars (i : Int) : List Char :=
  if i < 0 then '-' :: natToChars i.natAbs else natToChars i.natAbs

/-- Smallest exponent `k ≤ 30` with `den ∣ 10 ^ k`, if any. -/
def pow10Denom (den : Nat) : Option Nat :=
  (List.range 31).find? (fun k => decide (den ∣ 10 ^ k))

/-- Decimal rendering of a rational JSON number.  Integers render exactly as
Go renders them; finite decimal fractions render with a decimal point.  The
verified claims only ever exchange integer-valued numbers. -/
def ratToChars (q : ℚ) : List Char :=
  if q.den = 1 then intToChars q.num
  else
    match pow10Denom q.den with
    | some k =>
        let scaled : Nat := q.num.natAbs * (10 ^ k / q.den)
        let fracChars : List Char := natToChars (scaled % 10 ^ k)
        (if q.num < 0 then ['-'] else []) ++ natToChars (scaled / 10 ^ k) ++
          '.' :: (List.replicate (k - fracChars.length) '0' ++ fracChars)
    | none => intToChars q.num

/-! Rendering of JSON documents: the model of `json.Marshal`'s output text. -/

/-- Characters that `json.Marshal` escapes in string literals (the subset the
modelled program can produce; other control characters never occur). -/
def escapeChar (c : Char) : List Char :=
  if c = '"' then ['\\', '"']
  else if c = '\\' then ['\\', '\\']
  else if c = '\n' then ['\\', 'n']
  else if c = '\t' then ['\\', 't']
  else if c = '\r' then ['\\', 'r']
  else [c]

def escapeChars (cs : List Char) : List Char :=
  cs.foldr (fun c acc => escapeChar c ++ acc) []

/-- A JSON string literal, quotes included. -/
def renderStrChars (s : String) : List Char :=
  '"' :: (escapeChars s.data ++ ['"'])

/-- The characters of the literal `null`. -/
def nullChars : List Char := ['n', 'u', 'l', 'l']

/-- The characters of the literal `true`. -/
def trueChars : List Char := ['t', 'r', 'u', 'e']

/-- The characters of the literal `false`. -/
def falseChars : List Char := ['f', 'a', 'l', 's', 'e']

mutual

def renderJson : Json → List Char
  | .null => nullChars
  | .bool true => trueChars
  | .bool false => falseChars
  | .num q => ratToChars q
  | .str s => renderStrChars s
  | .arr xs => '[' :: (renderList xs ++ [']'])
  | .obj fs => '{' :: (renderFields fs ++ ['}'])

def renderList : List Json → List Char
  | [] => []
  | [x] => renderJson x
  | x :: xs => renderJson x ++ ',' :: renderList xs

def renderFields : List (String × Json) → List Char
  | [] => []
  | [(k, v)] => renderStrChars k ++ ':' :: renderJson v
  | (k, v) :: fs => (renderStrChars k ++ ':' :: renderJson v) ++ ',' :: renderFields fs

end

/-! Parsing of JSON text: the model of the decoding half of `encoding/json`.
The parser is fuel-based (the fuel bounds nesting depth); callers pass ample
fuel, so the bound is never hit on any input the program can see. -/

def skipWs : List Char → List Char
  | [] => []
  | c :: rest => if wsChar c then skipWs rest else c :: rest

def parseStringBody : List Char → Except String (List Char × List Char)
  | [] => .error "unterminated string literal"
  | c :: rest =>
      if c = '"' then .ok ([], rest)
      else if c = '\\' then
        match rest with
        | [] => .error "unterminated escape"
        | e :: rest₂ =>
            let esc : Except String Char :=
              if e = '"' then .ok '"'
              else if e = '\\' then .ok '\\'
              else if e = '/' then .ok '/'
              else if e = 'n' then .ok '\n'
              else if e = 't' then .ok '\t'
              else if e = 'r' then .ok '\r'
              else .error "unsupported escape"
            match esc with
            | .error msg => .error msg
            | .ok ec =>
                match parseStringBody rest₂ with
                | .error msg => .error msg
                | .ok (s, rest₃) => .ok (ec :: s, rest₃)
      else
        match parseStringBody rest with
        | .error msg => .error msg
        | .ok (s, rest₂) => .ok (c :: s, rest₂)

def parseDigits : List Char → Nat → Nat × List Char
  | [], acc => (acc, [])
  | c :: rest, acc =>
      if isDigitChar c then parseDigits rest (acc * 10 + (c.toNat - 48)) else (acc, c :: rest)

/-- A JSON number after an optional leading minus sign: an integer part and an
optional fractional part. -/
def parseNumAfterSign (cs : List Char) : Except String (ℚ × List Char) :=
  match cs with
  | [] => .error "expected digit"
  | c :: _ =>
      if isDigitChar c then
        let p := parseDigits cs 0
        match p.2 with
        | c₀ :: c₂ :: rest₂ =>
            if c₀ = '.' ∧ isDigitChar c₂ then
              let f := parseDigits (c₂ :: rest₂) 0
              let fracLen := (c₂ :: rest₂).length - f.2.length
              .ok ((p.1 : ℚ) + (f.1 : ℚ) / ((10 : ℚ) ^ fracLen), f.2)
            else .ok ((p.1 : ℚ), p.2)
        | _ => .ok ((p.1 : ℚ), p.2)
      else .error "expected digit"

/-- Consume an expected literal tail (the "ull" of `null` etc.). -/
def expectChars : List Char → List Char → Option (List Char)
  | [], cs => some cs
  | _ :: _, [] => none
  | e :: es, c :: cs => if c = e then expectChars es cs else none

mutual

def parseJ : Nat → List Char → Except String (Json × List Char)
  | 0, _ => .error "JSON nested too deeply"
  | fuel + 1, cs =>
      match skipWs cs with
      | [] => .error "unexpected end of JSON"
      | c :: rest =>
          if c = 'n' then
            match expectChars ['u', 'l', 'l'] rest with
            | some rest₂ => .ok (.null, rest₂)
            | none => .error "unexpected character"
          else if c = 't' then
            match expectChars ['r', 'u', 'e'] rest with
            | some rest₂ => .ok (.bool true, rest₂)
            | none => .error "unexpected character"
          else if c = 'f' then
            match expectChars ['a', 'l', 's', 'e'] rest with
            | some rest₂ => .ok (.bool false, rest₂)
            | none => .error "unexpected character"
          else if c = '"' then
            match parseStringBody rest with
            | .error msg => .error msg
            | .ok (s, rest₂) => .ok (.str ⟨s⟩, rest₂)
          else if c = '[' then
            match skipWs rest with
            | [] => .error "unexpected end of JSON"
            | c₂ :: rest₂ =>
                if c₂ = ']' then .ok (.arr [], rest₂)
                else
                  match parseElems fuel (c₂ :: rest₂) with
                  | .error msg => .error msg
                  | .ok (xs, rest₃) => .ok (.arr xs, rest₃)
          else if c = '{' then
            match skipWs rest with
            | [] => .error "unexpected end of JSON"
            | c₂ :: rest₂ =>
                if c₂ = '}' then .ok (.obj [], rest₂)
                else
                  match parseFields fuel (c₂ :: rest₂) with
                  | .error msg => .error msg
                  | .ok (fs, rest₃) => .ok (.obj fs, rest₃)
          else if c = '-' then
            match parseNumAfterSign rest with
            | .error msg => .error msg
            | .ok (q, rest₂) => .ok (.num (-q), rest₂)
          else if isDigitChar c then
            match parseNumAfterSign (c :: rest) with
            | .error msg => .error msg
            | .ok (q, rest₂) => .ok (.num q, rest₂)
          else .error "unexpected character"

def parseElems : Nat → List Char → Except String (List Json × List Char)
  | 0, _ => .error "JSON nested too deeply"
  | fuel + 1, cs =>
      match parseJ fuel cs with
      | .error msg => .error msg
      | .ok (v, rest) =>
          match skipWs rest with
          | [] => .error "expected comma or closing bracket"
          | c :: rest₂ =>
              if c = ',' then
                match parseElems fuel rest₂ with
                | .error msg => .error msg
                | .ok (vs, rest₃) => .ok (v :: vs, rest₃)
              else if c = ']' then .ok ([v], rest₂)
              else .error "expected comma or closing bracket"

def parseFields : Nat → List Char → Except String (List (String × Json) × List Char)
  | 0, _ => .error "JSON nested too deeply"
  | fuel + 1, cs =>
      match skipWs cs with
      | [] => .error "expected object key"
      | c :: rest =>
          if c = '"' then
            match parseStringBody rest with
            | .error msg => .error msg
            | .ok (k, rest₁) =>
                match skipWs rest₁ with
                | [] => .error "expected colon"
                | c₂ :: rest₂ =>
                    if c₂ = ':' then
                      match parseJ fuel rest₂ with
                      | .error msg => .error msg
                      | .ok (v, rest₃) =>
                          match skipWs rest₃ with
                          | [] => .error "expected comma or closing brace"
                          | c₃ :: rest₄ =>
                              if c₃ = ',' then
                                match parseFields fuel rest₄ with
                                | .error msg => .error msg
                                | .ok (fs, rest₅) => .ok ((⟨k⟩, v) :: fs, rest₅)
                              else if c₃ = '}' then .ok ([(⟨k⟩, v)], rest₄)
                              else .error "expected comma or closing brace"
                    else .error "expected colon"
          else .error "expected object key"

end

/-- Model of `json.Unmarshal` at the document level: parse one value and
require that nothing but whitespace follows. -/
def jsonUnmarshal (cs : List Char) : Except String Json :=
  match parseJ (cs.length + 1) cs with
  | .error msg => .error msg
  | .ok (j, rest) =>
      if skipWs rest = [] then .ok j else .error "trailing data after JSON value"

/-- Model of `json.NewDecoder(r).Decode` at the document level: parse one
value, ignoring whatever follows it. -/
def jsonDecodeValue (cs : List Char) : Except String Json :=
  match parseJ (cs.length + 1) cs with
  | .error msg => .error msg
  | .ok (j, _) => .ok j

/-! Base64 (model of `encoding/base64` `StdEncoding`). -/

def b64Alphabet : List Char :=
  "ABCDEFGHIJKLMNOPQRSTUVWXYZabcdefghijklmnopqrstuvwxyz0123456789+/".data

def b64Char (n : Nat) : Char :=
  b64Alphabet.getD n 'A'

def b64Val (c : Char) : Option Nat :=
  let n := c.toNat
  if 65 ≤ n ∧ n ≤ 90 then some (n - 65)
  else if 97 ≤ n ∧ n ≤ 122 then some (26 + (n - 97))
  else if 48 ≤ n ∧ n ≤ 57 then some (52 + (n - 48))
  else if c = '+' then some 62
  else if c = '/' then some 63
  else none

/-- `base64.StdEncoding.EncodeToString` on a byte sequence. -/
def encodeB64 : List Nat → List Char
  | [] => []
  | [b₀] => [b64Char (b₀ / 4), b64Char (b₀ % 4 * 16), '=', '=']
  | [b₀, b₁] => [b64Char (b₀ / 4), b64Char (b₀ % 4 * 16 + b₁ / 16), b64Char (b₁ % 16 * 4), '=']
  | b₀ :: b₁ :: b₂ :: rest =>
      b64Char (b₀ / 4) :: b64Char (b₀ % 4 * 16 + b₁ / 16) ::
        b64Char (b₁ % 16 * 4 + b₂ / 64) :: b64Char (b₂ % 64) :: encodeB64 rest

/-- `base64.StdEncoding.DecodeString`: rejects characters outside the
alphabet (in particular `{`, so a raw JSON document never decodes) and
ill-formed lengths. -/
def decodeB64 : List Char → Except String (List Nat)
  | [] => .ok []
  | c₁ :: c₂ :: c₃ :: c₄ :: rest =>
      if rest = [] ∧ c₃ = '=' ∧ c₄ = '=' then
        match b64Val c₁, b64Val c₂ with
        | some v₁, some v₂ => .ok [v₁ * 4 + v₂ / 16]
        | _, _ => .error "illegal base64 data"
      else if rest = [] ∧ c₄ = '=' then
        match b64Val c₁, b64Val c₂, b64Val c₃ with
        | some v₁, some v₂, some v₃ => .ok [v₁ * 4 + v₂ / 16, v₂ % 16 * 16 + v₃ / 4]
        | _, _, _ => .error "illegal base64 data"
      else
        match b64Val c₁, b64Val c₂, b64Val c₃, b64Val c₄ with
        | some v₁, some v₂, some v₃, some v₄ =>
            (match decodeB64 rest with
            | .error msg => .error msg
            | .ok bs =>
                .ok ((v₁ * 4 + v₂ / 16) :: (v₂ % 16 * 16 + v₃ / 4) :: (v₃ % 4 * 64 + v₄) :: bs))
        | _, _, _, _ => .error "illegal base64 data"
  | _ => .error "illegal base64 length"

/-! Lowercase hex (model of go-ethereum's `common.Bytes2Hex`). -/

def hexDigit : Nat → Char
  | 0 => '0'
  | 1 => '1'
  | 2 => '2'
  | 3 => '3'
  | 4 => '4'
  | 5 => '5'
  | 6 => '6'
  | 7 => '7'
  | 8 => '8'
  | 9 => '9'
  | 10 => 'a'
  | 11 => 'b'
  | 12 => 'c'
  | 13 => 'd'
  | 14 => 'e'
  | _ => 'f'

def bytesToHex (bs : List Nat) : String :=
  ⟨bs.foldr (fun b acc => hexDigit (b / 16 % 16) :: hexDigit (b % 16) :: acc) []⟩

/-! Go maps (`map[string]any`): represented as association lists kept in
canonical form — keys strictly sorted, a later duplicate having replaced an
earlier one — which is the form `json.Marshal` serializes a Go map in. -/

abbrev GoMap := List (String × Json)

/-- Go's byte-wise string ordering (the order `json.Marshal` sorts map keys
in), on the ASCII strings the modelled program exchanges. -/
def charsLt : List Char → List Char → Bool
  | [], [] => false
  | [], _ :: _ => true
  | _ :: _, [] => false
  | c :: cs, d :: ds =>
      if c.toNat < d.toNat then true
      else if c.toNat = d.toNat then charsLt cs ds
      else false

def strLt (a b : String) : Bool :=
  charsLt a.data b.data

def mapInsert : GoMap → String → Json → GoMap
  | [], k, v => [(k, v)]
  | (k₀, v₀) :: fs, k, v =>
      if k = k₀ then (k, v) :: fs
      else if strLt k k₀ then (k, v) :: (k₀, v₀) :: fs
      else (k₀, v₀) :: mapInsert fs k v

def sortDedupe (fs : GoMap) : GoMap :=
  fs.foldl (fun acc kv => mapInsert acc kv.1 kv.2) []

mutual

/-- Canonical form of a decoded `any` value: every object level sorted with
later duplicates winning, as a value of type `map[string]any` compares under
`reflect.DeepEqual`. -/
def canonJson : Json → Json
  | .arr xs => .arr (canonList xs)
  | .obj fs => .obj (sortDedupe (canonFields fs))
  | j => j

def canonList : List Json → List Json
  | [] => []
  | x :: xs => canonJson x :: canonList xs

def canonFields : List (String × Json) → List (String × Json)
  | [] => []
  | (k, v) :: fs => (k, canonJson v) :: canonFields fs

end

/-- The Go map a JSON object decodes to (`json.Unmarshal` into
`map[string]any`). -/
def goMapOfFields (fs : List (String × Json)) : GoMap :=
  sortDedupe (canonFields fs)

/-- Map lookup returning a string only when the stored value is a string:
Go's `m[k].(string)` type assertion pattern. -/
def goLookupString (m : Option GoMap) (k : String) : Option String :=
  match m with
  | none => none
  | some fs =>
      match List.lookup k fs with
      | some (.str s) => some s
      | _ => none

/-! Validity of a document for the encode/decode round trip: the documents the
program actually serializes are ASCII with no characters needing escapes in
strings, carry only integer-valued numbers, and keep objects in the canonical
(key-sorted, duplicate-free) form `json.Marshal` emits for Go maps. -/

/-- A string character that `json.Marshal` emits verbatim inside a literal:
printable ASCII other than the quote and the backslash. -/
def safeChar (c : Char) : Bool :=
  32 ≤ c.toNat && c.toNat < 127 && c ≠ '"' && c ≠ '\\'

def safeStr (s : String) : Bool :=
  s.data.all safeChar

mutual

def jvalid : Json → Bool
  | .null => true
  | .bool _ => true
  | .num q => q.den == 1
  | .str s => s.data.all safeChar
  | .arr xs => jvalidList xs
  | .obj fs => jvalidFields fs

def jvalidList : List Json → Bool
  | [] => true
  | x :: xs => jvalid x && jvalidList xs

def jvalidFields : List (String × Json) → Bool
  | [] => true
  | (k, v) :: fs => k.data.all safeChar && jvalid v && jvalidFields fs

end

mutual

/-- Structural size of a document, used as the fuel bound for the parser. -/
def jsize : Json → Nat
  | .arr xs => 2 + jsizeList xs
  | .obj fs => 2 + jsizeFields fs
  | _ => 1

def jsizeList : List Json → Nat
  | [] => 0
  | x :: xs => jsize x + jsizeList xs

def jsizeFields : List (String × Json) → Nat
  | [] => 0
  | (_, v) :: fs => jsize v + jsizeFields fs

end

/-- A continuation after a rendered number at which the number parser is
guaranteed to stop: empty, or starting with neither a digit nor a dot. -/
def tailOkNum : List Char → Bool
  | [] => true
  | c :: _ => !isDigitChar c && c ≠ '.'

/-! The wire data structures of `types.go`.  Field names follow the source;
`from` is a Lean keyword, so `TransferAuthorization.From` becomes
`fromAddr`. -/

/-- `PaymentOption` of `types.go`. -/
structure PaymentOption where
  scheme : String
  network : String
  amount : String
  asset : String
  payTo : String
  maxTimeoutSeconds : Int
  extra : Option GoMap
  deriving DecidableEq, Inhabited

/-- `ResourceInfo` of `types.go`. -/
structure ResourceInfo where
  url : String
  description : String
  mimeType : String
  deriving DecidableEq, Inhabited

/-- `PaymentRequirement` of `types.go`. -/
structure PaymentRequirement where
  x402Version : Int
  accepts : List PaymentOption
  resource : ResourceInfo
  extensions : Option GoMap
  deriving DecidableEq, Inhabited

/-- `TransferAuthorization` of `types.go`. -/
structure TransferAuthorization where
  fromAddr : String
  toAddr : String
  value : String
  validAfter : String
  validBefore : String
  nonce : String
  deriving DecidableEq, Inhabited

/-- `PaymentData` of `types.go`. -/
structure PaymentData where
  signature : String
  authorization : TransferAuthorization
  deriving DecidableEq, Inhabited

/-- `PaymentPayload` of `types.go`. -/
structure PaymentPayload where
  x402Version : Int
  resource : ResourceInfo
  accepted : PaymentOption
  payload : PaymentData
  extensions : Option GoMap
  deriving DecidableEq, Inhabited

/-- `ChatMessage` of `types.go`. -/
structure ChatMessage where
  role : String
  content : String
  deriving DecidableEq, Inhabited

/-- `Choice` of `types.go`. -/
structure Choice where
  index : Int
  message : ChatMessage
  finishReason : String
  deriving DecidableEq, Inhabited

/-- `Usage` of `types.go`. -/
structure Usage where
  promptTokens : Int
  completionTokens : Int
  totalTokens : Int
  deriving DecidableEq, Inhabited

/-- `ChatResponse` of `types.go`. -/
structure ChatResponse where
  id : String
  object : String
  created : Int
  model : String
  choices : List Choice
  usage : Usage
  deriving DecidableEq, Inhabited

/-- `Spending` of `client.go` (the session ledger snapshot; the `float64`
total is modelled as an exact rational). -/
structure Spending where
  totalUSD : ℚ
  calls : Int
  deriving DecidableEq, Inhabited

/-! `json.Marshal` of the wire structures: fields in declaration order with
the `json:"…"` tag names, `omitempty` maps omitted when nil or empty. -/

def encodeGoMapOpt (m : Option GoMap) (tag : String) : List (String × Json) :=
  match m with
  | none => []
  | some fs => if fs = [] then [] else [(tag, .obj fs)]

def encodeChatMessage (msg : ChatMessage) : Json :=
  .obj [("role", .str msg.role), ("content", .str msg.content)]

def encodePaymentOption (o : PaymentOption) : Json :=
  .obj ([("scheme", .str o.scheme), ("network", .str o.network), ("amount", .str o.amount),
         ("asset", .str o.asset), ("payTo", .str o.payTo),
         ("maxTimeoutSeconds", .num (o.maxTimeoutSeconds : ℚ))] ++
        encodeGoMapOpt o.extra "extra")

def encodeResourceInfo (r : ResourceInfo) : Json :=
  .obj [("url", .str r.url), ("description", .str r.description), ("mimeType", .str r.mimeType)]

def encodePaymentRequirement (req : PaymentRequirement) : Json :=
  .obj ([("x402Version", .num (req.x402Version : ℚ)),
         ("accepts", .arr (req.accepts.map encodePaymentOption)),
         ("resource", encodeResourceInfo req.resource)] ++
        encodeGoMapOpt req.extensions "extensions")

def encodeTransferAuthorization (a : TransferAuthorization) : Json :=
  .obj [("from", .str a.fromAddr), ("to", .str a.toAddr), ("value", .str a.value),
        ("validAfter", .str a.validAfter), ("validBefore", .str a.validBefore),
        ("nonce", .str a.nonce)]

def encodePaymentData (d : PaymentData) : Json :=
  .obj [("signature", .str d.signature), ("authorization", encodeTransferAuthorization d.authorization)]

def encodePaymentPayload (p : PaymentPayload) : Json :=
  .obj ([("x402Version", .num (p.x402Version : ℚ)),
         ("resource", encodeResourceInfo p.resource),
         ("accepted", encodePaymentOption p.accepted),
         ("payload", encodePaymentData p.payload)] ++
        encodeGoMapOpt p.extensions "extensions")

/-! `json.Unmarshal` of the wire structures: JSON object keys are matched
against tag names (exactly, or case-insensitively as Go falls back to),
unknown keys are ignored, `null` leaves scalar fields untouched, and a
type-mismatched value is an error. -/

def lowerChar (c : Char) : Char :=
  if 65 ≤ c.toNat ∧ c.toNat ≤ 90 then Char.ofNat (c.toNat + 32) else c

def lowerStr (s : String) : String :=
  ⟨s.data.map lowerChar⟩

def fieldMatch (k tag : String) : Bool :=
  k = tag || lowerStr k = lowerStr tag

def goAssignString (cur : String) (v : Json) : Except String String :=
  match v with
  | .str s => .ok s
  | .null => .ok cur
  | _ => .error "cannot unmarshal value into field of type string"

def goAssignInt (cur : Int) (v : Json) : Except String Int :=
  match v with
  | .num q => if q.den = 1 then .ok q.num else .error "cannot unmarshal fraction into field of type int"
  | .null => .ok cur
  | _ => .error "cannot unmarshal value into field of type int"

def goAssignMap (v : Json) : Except String (Option GoMap) :=
  match v with
  | .obj fs => .ok (some (goMapOfFields fs))
  | .null => .ok none
  | _ => .error "cannot unmarshal value into field of type map"

def paymentOptionSetField (o : PaymentOption) (k : String) (v : Json) :
    Except String PaymentOption :=
  if fieldMatch k "scheme" then (goAssignString o.scheme v).map fun s => { o with scheme := s }
  else if fieldMatch k "network" then (goAssignString o.network v).map fun s => { o with network := s }
  else if fieldMatch k "amount" then (goAssignString o.amount v).map fun s => { o with amount := s }
  else if fieldMatch k "asset" then (goAssignString o.asset v).map fun s => { o with asset := s }
  else if fieldMatch k "payTo" then (goAssignString o.payTo v).map fun s => { o with payTo := s }
  else if fieldMatch k "maxTimeoutSeconds" then
    (goAssignInt o.maxTimeoutSeconds v).map fun n => { o with maxTimeoutSeconds := n }
  else if fieldMatch k "extra" then (goAssignMap v).map fun m => { o with extra := m }
  else .ok o

def decodePaymentOptionInto (cur : PaymentOption) (j : Json) : Except String PaymentOption :=
  match j with
  | .obj fs => fs.foldlM (fun o kv => paymentOptionSetField o kv.1 kv.2) cur
  | .null => .ok cur
  | _ => .error "cannot unmarshal value into PaymentOption"

def resourceInfoSetField (r : ResourceInfo) (k : String) (v : Json) : Except String ResourceInfo :=
  if fieldMatch k "url" then (goAssignString r.url v).map fun s => { r with url := s }
  else if fieldMatch k "description" then
    (goAssignString r.description v).map fun s => { r with description := s }
  else if fieldMatch k "mimeType" then (goAssignString r.mimeType v).map fun s => { r with mimeType := s }
  else .ok r

def decodeResourceInfoInto (cur : ResourceInfo) (j : Json) : Except String ResourceInfo :=
  match j with
  | .obj fs => fs.foldlM (fun r kv => resourceInfoSetField r kv.1 kv.2) cur
  | .null => .ok cur
  | _ => .error "cannot unmarshal value into ResourceInfo"

def goAssignOptions (v : Json) : Except String (List PaymentOption) :=
  match v with
  | .arr xs => xs.mapM (decodePaymentOptionInto default)
  | .null => .ok []
  | _ => .error "cannot unmarshal value into field of type slice"

def paymentRequirementSetField (req : PaymentRequirement) (k : String) (v : Json) :
    Except String PaymentRequirement :=
  if fieldMatch k "x402Version" then
    (goAssignInt req.x402Version v).map fun n => { req with x402Version := n }
  else if fieldMatch k "accepts" then (goAssignOptions v).map fun xs => { req with accepts := xs }
  else if fieldMatch k "resource" then
    (decodeResourceInfoInto req.resource v).map fun r => { req with resource := r }
  else if fieldMatch k "extensions" then (goAssignMap v).map fun m => { req with extensions := m }
  else .ok req

def decodePaymentRequirementInto (cur : PaymentRequirement) (j : Json) :
    Except String PaymentRequirement :=
  match j with
  | .obj fs => fs.foldlM (fun req kv => paymentRequirementSetField req kv.1 kv.2) cur
  | .null => .ok cur
  | _ => .error "cannot unmarshal value into PaymentRequirement"

def chatMessageSetField (msg : ChatMessage) (k : String) (v : Json) : Except String ChatMessage :=
  if fieldMatch k "role" then (goAssignString msg.role v).map fun s => { msg with role := s }
  else if fieldMatch k "content" then (goAssignString msg.content v).map fun s => { msg with content := s }
  else .ok msg

def decodeChatMessageInto (cur : ChatMessage) (j : Json) : Except String ChatMessage :=
  match j with
  | .obj fs => fs.foldlM (fun m kv => chatMessageSetField m kv.1 kv.2) cur
  | .null => .ok cur
  | _ => .error "cannot unmarshal value into ChatMessage"

def choiceSetField (c : Choice) (k : String) (v : Json) : Except String Choice :=
  if fieldMatch k "index" then (goAssignInt c.index v).map fun n => { c with index := n }
  else if fieldMatch k "message" then
    (decodeChatMessageInto c.message v).map fun m => { c with message := m }
  else if fieldMatch k "finish_reason" then
    (goAssignString c.finishReason v).map fun s => { c with finishReason := s }
  else .ok c

def decodeChoiceInto (cur : Choice) (j : Json) : Except String Choice :=
  match j with
  | .obj fs => fs.foldlM (fun c kv => choiceSetField c kv.1 kv.2) cur
  | .null => .ok cur
  | _ => .error "cannot unmarshal value into Choice"

def usageSetField (u : Usage) (k : String) (v : Json) : Except String Usage :=
  if fieldMatch k "prompt_tokens" then (goAssignInt u.promptTokens v).map fun n => { u with promptTokens := n }
  else if fieldMatch k "completion_tokens" then
    (goAssignInt u.completionTokens v).map fun n => { u with completionTokens := n }
  else if fieldMatch k "total_tokens" then
    (goAssignInt u.totalTokens v).map fun n => { u with totalTokens := n }
  else .ok u

def decodeUsageInto (cur : Usage) (j : Json) : Except String Usage :=
  match j with
  | .obj fs => fs.foldlM (fun u kv => usageSetField u kv.1 kv.2) cur
  | .null => .ok cur
  | _ => .error "cannot unmarshal value into Usage"

def goAssignChoices (v : Json) : Except String (List Choice) :=
  match v with
  | .arr xs => xs.mapM (decodeChoiceInto default)
  | .null => .ok []
  | _ => .error "cannot unmarshal value into field of type slice"

def chatResponseSetField (r : ChatResponse) (k : String) (v : Json) : Except String ChatResponse :=
  if fieldMatch k "id" then (goAssignString r.id v).map fun s => { r with id := s }
  else if fieldMatch k "object" then (goAssignString r.object v).map fun s => { r with object := s }
  else if fieldMatch k "created" then (goAssignInt r.created v).map fun n => { r with created := n }
  else if fieldMatch k "model" then (goAssignString r.model v).map fun s => { r with model := s }
  else if fieldMatch k "choices" then (goAssignChoices v).map fun xs => { r with choices := xs }
  else if fieldMatch k "usage" then (decodeUsageInto r.usage v).map fun u => { r with usage := u }
  else .ok r

def decodeChatResponseInto (cur : ChatResponse) (j : Json) : Except String ChatResponse :=
  match j with
  | .obj fs => fs.foldlM (fun r kv => chatResponseSetField r kv.1 kv.2) cur
  | .null => .ok cur
  | _ => .error "cannot unmarshal value into ChatResponse"

/-! Validity of the wire structures for the encode/decode round trip. -/

/-- An optional-map field survives the round trip when it is absent (`nil`),
or non-empty (else `omitempty` drops it and it decodes back as `nil`) and in
the canonical form a decoded Go map is stored in, with valid entries. -/
def goMapValid : Option GoMap → Bool
  | none => true
  | some [] => false
  | some fs => decide (sortDedupe (canonFields fs) = fs) && jvalidFields fs

def optionValid (o : PaymentOption) : Bool :=
  safeStr o.scheme && safeStr o.network && safeStr o.amount && safeStr o.asset &&
  safeStr o.payTo && goMapValid o.extra

def resourceValid (r : ResourceInfo) : Bool :=
  safeStr r.url && safeStr r.description && safeStr r.mimeType

def reqValid (req : PaymentRequirement) : Bool :=
  req.accepts.all optionValid && resourceValid req.resource && goMapValid req.extensions

/-! Numeric string parsing used by the payment path. -/

/-- An optional single leading sign: whether it was a minus, and the
remaining characters. -/
def splitSign (cs : List Char) : Bool × List Char :=
  match cs with
  | [] => (false, [])
  | c :: rest =>
      if c = '-' then (true, rest)
      else if c = '+' then (false, rest)
      else (false, c :: rest)

/-- The value of an all-digit, non-empty character run. -/
def digitsVal (ds : List Char) : Option Nat :=
  if ds ≠ [] ∧ ds.all isDigitChar then
    some (ds.foldl (fun acc c => acc * 10 + (c.toNat - 48)) 0)
  else none

/-- Go's `new(big.Int).SetString(s, 10)`: an optional single sign followed by
at least one decimal digit, the whole string consumed. -/
def bigIntSetString10 (s : String) : Option Int :=
  let p := splitSign s.data
  (digitsVal p.2).map (fun n => if p.1 then -(n : Int) else (n : Int))

/-- Go's `fmt.Sscanf(s, "%f", &x)`: the longest leading float prefix (sign,
digits, optional fraction; the exponent form never occurs in the modelled
amounts), `none` when no digit can be read. -/
def scanFloatQ (s : String) : Option ℚ :=
  let p := splitSign s.data
  let sign : ℚ := if p.1 then -1 else 1
  match p.2 with
  | [] => none
  | c :: _ =>
      if isDigitChar c then
        let (n, rest) := parseDigits p.2 0
        match rest with
        | '.' :: c₂ :: rest₂ =>
            if isDigitChar c₂ then
              let (f, rest₃) := parseDigits (c₂ :: rest₂) 0
              let fracLen := (c₂ :: rest₂).length - rest₃.length
              some (sign * ((n : ℚ) + (f : ℚ) / (10 : ℚ) ^ fracLen))
            else some (sign * (n : ℚ))
        | _ => some (sign * (n : ℚ))
      else none

/-! The x402 engine of `x402.go`. -/

/-- `BaseChainID` of `x402.go`. -/
def BaseChainID : Int := 8453

/-- `USDCBase` of `x402.go`. -/
def USDCBase : String := "0x833589fCD6eDb6E08f4c7C32D4f71b54bdA02913"

/-- The external cryptographic collaborators of `CreatePaymentPayload`:
wall-clock time, the entropy source behind `createNonce`, go-ethereum's
EIP-712 struct hashing, keccak-256 and secp256k1 signing, and the address
derived from the signing key.  The repository's own logic around them is
embedded directly. -/
structure CryptoEnv where
  now : Int
  entropy : Except String (List Nat)
  hashDomain : Except String (List Nat)
  hashMessage : Except String (List Nat)
  keccak : List Nat → List Nat
  sign : List Nat → Except String (List Nat)
  walletAddress : String

/-- Two's-complement wrap into `int64`: the value a Go `int64` addition or
subtraction actually stores.  `now - 600` and `now + int64(maxTimeoutSeconds)`
in `CreatePaymentPayload` are `int64` operations and wrap at the boundaries. -/
def wrapInt64 (i : Int) : Int :=
  (i + 2 ^ 63) % 2 ^ 64 - 2 ^ 63

/-- `createNonce` of `x402.go`. -/
def createNonce (env : CryptoEnv) : Except String String :=
  match env.entropy with
  | .error e => .error ("failed to generate nonce: " ++ e)
  | .ok bs => .ok ("0x" ++ bytesToHex bs)

/-- The recovery-byte normalization at the end of `CreatePaymentPayload`:
`if signature[64] < 27 { signature[64] += 27 }`. -/
def normalizeSigV (sig : List Nat) : List Nat :=
  let v := sig.getD 64 0
  if v < 27 then sig.set 64 (v + 27) else sig

/-- `CreatePaymentPayload` of `x402.go` up to (but not including) the final
JSON-then-base64 encoding: the `PaymentPayload` value it assembles. -/
def createPaymentPayloadStruct (env : CryptoEnv)
    (recipient amount network resourceURL resourceDescription : String)
    (maxTimeoutSeconds : Int) (extra : Option GoMap) (extensions : Option GoMap) :
    Except String PaymentPayload :=
  let walletAddress := env.walletAddress
  let validAfter := wrapInt64 (env.now - 600)
  let validBefore := wrapInt64 (env.now + maxTimeoutSeconds)
  match createNonce env with
  | .error e => .error e
  | .ok nonce =>
  match bigIntSetString10 amount with
  | none => .error ("invalid amount: " ++ amount)
  | some _amountBig =>
  let usdcName := match goLookupString extra "name" with
    | some s => s
    | none => "USD Coin"
  let usdcVersion := match goLookupString extra "version" with
    | some s => s
    | none => "2"
  match env.hashDomain with
  | .error e => .error ("failed to hash domain: " ++ e)
  | .ok domainSeparator =>
  match env.hashMessage with
  | .error e => .error ("failed to hash message: " ++ e)
  | .ok messageHash =>
  let rawData := [0x19, 0x01] ++ domainSeparator ++ messageHash
  let hash := env.keccak rawData
  match env.sign hash with
  | .error e => .error ("failed to sign: " ++ e)
  | .ok signature₀ =>
  let signature := normalizeSigV signature₀
  let responseExtra : GoMap := [("name", .str usdcName), ("version", .str usdcVersion)]
  .ok { x402Version := 2,
        resource := { url := resourceURL, description := resourceDescription,
                      mimeType := "application/json" },
        accepted := { scheme := "exact", network := network, amount := amount,
                      asset := USDCBase, payTo := recipient,
                      maxTimeoutSeconds := maxTimeoutSeconds, extra := some responseExtra },
        payload := { signature := "0x" ++ bytesToHex signature,
                     authorization := { fromAddr := walletAddress, toAddr := recipient,
                                        value := amount,
                                        validAfter := ⟨intToChars validAfter⟩,
                                        validBefore := ⟨intToChars validBefore⟩,
                                        nonce := nonce } },
        extensions := extensions }

/-- `CreatePaymentPayload` of `x402.go`: the assembled payload, JSON-encoded
then base64-encoded. -/
def CreatePaymentPayload (env : CryptoEnv)
    (recipient amount network resourceURL resourceDescription : String)
    (maxTimeoutSeconds : Int) (extra : Option GoMap) (extensions : Option GoMap) :
    Except String String :=
  (createPaymentPayloadStruct env recipient amount network resourceURL resourceDescription
      maxTimeoutSeconds extra extensions).map
    (fun payload => ⟨encodeB64 ((renderJson (encodePaymentPayload payload)).map Char.toNat)⟩)

/-- `ParsePaymentRequired` of `x402.go`: base64-decode the header value, then
`json.Unmarshal` the bytes into a `PaymentRequirement`. -/
def ParsePaymentRequired (headerValue : String) : Except String PaymentRequirement :=
  match decodeB64 headerValue.data with
  | .error e => .error ("failed to decode payment required header: " ++ e)
  | .ok decoded =>
      match (do
        let j ← jsonUnmarshal (decoded.map Char.ofNat)
        decodePaymentRequirementInto default j : Except String PaymentRequirement) with
      | .error e => .error ("failed to parse payment required: " ++ e)
      | .ok req => .ok req

/-- `ExtractPaymentDetails` of `x402.go`. -/
def ExtractPaymentDetails (req : PaymentRequirement) : Except String PaymentOption :=
  match req.accepts with
  | [] => .error "no payment options in payment required response"
  | option₀ :: _ =>
      let option :=
        if option₀.amount = "" then
          match goLookupString option₀.extra "maxAmountRequired" with
          | some s => { option₀ with amount := s }
          | none => option₀
        else option₀
      if option.amount = "" then .error "no amount found in payment requirements"
      else .ok option

/-- `ExtractPaymentDetails` with the requirement passed as explicit state, so
that writes the Go code could perform through the shared `Accepts` backing
array would be visible.  `option := req.Accepts[0]` copies the struct value
in Go, and the later `option.Amount = …` assignments hit only that local
copy, so the requirement is handed back as received. -/
def extractPaymentDetailsSt (req : PaymentRequirement) :
    Except String PaymentOption × PaymentRequirement :=
  match req.accepts with
  | [] => (.error "no payment options in payment required response", req)
  | option₀ :: _ =>
      let option :=
        if option₀.amount = "" then
          match goLookupString option₀.extra "maxAmountRequired" with
          | some s => { option₀ with amount := s }
          | none => option₀
        else option₀
      if option.amount = "" then (.error "no amount found in payment requirements", req)
      else (.ok option, req)

/-! The request/payment orchestrator of `client.go`, embedded over an explicit
transport: the list of HTTP responses the server will answer with, consumed in
order.  Every outcome carries the updated session state and the trace of the
requests that were issued. -/

/-- The error taxonomy of `types.go` plus plain `fmt.Errorf` errors. -/
inductive GoError : Type where
  | apiError (statusCode : Int) (message : String) : GoError
  | paymentError (message : String) : GoError
  | validationError (field message : String) : GoError
  | wrapped (message : String) : GoError
  deriving DecidableEq

/-- An HTTP request as the client issues it. -/
structure HttpRequest where
  method : String
  url : String
  contentType : String
  paymentSignature : Option String
  body : List Char
  deriving DecidableEq

/-- An HTTP response as the transport delivers it: status code, the
`payment-required` header (`""` when absent, as `Header.Get` reports it) and
the raw body bytes. -/
structure HttpResponse where
  status : Int
  paymentRequired : String
  body : List Char
  deriving DecidableEq

/-- The mutable session fields of `LLMClient`. -/
structure ClientState where
  sessionTotalUSD : ℚ
  sessionCalls : Int
  deriving DecidableEq

/-- `GetSpending` of `client.go`. -/
def GetSpending (st : ClientState) : Spending :=
  { totalUSD := st.sessionTotalUSD, calls := st.sessionCalls }

instance {ε α : Type} [DecidableEq ε] [DecidableEq α] : DecidableEq (Except ε α) := fun a b =>
  match a, b with
  | .error e₁, .error e₂ =>
      if h : e₁ = e₂ then .isTrue (by rw [h]) else .isFalse (fun hh => by cases hh; exact h rfl)
  | .ok a₁, .ok a₂ =>
      if h : a₁ = a₂ then .isTrue (by rw [h]) else .isFalse (fun hh => by cases hh; exact h rfl)
  | .error _, .ok _ => .isFalse (fun hh => by cases hh)
  | .ok _, .error _ => .isFalse (fun hh => by cases hh)

/-- Result of one logical call: the returned value or error, the session
state after the call, and the requests that were issued, in order. -/
structure RequestOutcome where
  result : Except GoError ChatResponse
  state : ClientState
  trace : List HttpRequest
  deriving DecidableEq

/-- The body-fallback of `handlePaymentAndRetry`: when the `payment-required`
header is absent, decode the response body as a map and — if it carries an
`x402` key — re-serialize that map as the header value.  The re-serialized
text is raw JSON, not base64. -/
def bodyFallbackHeader (body : List Char) : String :=
  match jsonDecodeValue body with
  | .error _ => ""
  | .ok j =>
      match j with
      | .obj fs =>
          let respBody := goMapOfFields fs
          match List.lookup "x402" respBody with
          | some _ => ⟨renderJson (.obj respBody)⟩
          | none => ""
      | _ => ""

/-- The header-recovery step of `handlePaymentAndRetry`: the
`payment-required` header if present, otherwise the body fallback. -/
def resolvePaymentHeader (resp : HttpResponse) : String :=
  if resp.paymentRequired ≠ "" then resp.paymentRequired
  else bodyFallbackHeader resp.body

/-- The challenge-processing half of `handlePaymentAndRetry` (header recovery,
challenge parsing, option extraction, signing): the signed `PAYMENT-SIGNATURE`
value together with the chosen option, or the terminal error. -/
def signChallenge (env : CryptoEnv) (url : String) (resp : HttpResponse) :
    Except GoError (String × PaymentOption) :=
  let paymentHeader := resolvePaymentHeader resp
  if paymentHeader = "" then
    .error (.paymentError "402 response but no payment requirements found")
  else
    match ParsePaymentRequired paymentHeader with
    | .error e => .error (.paymentError ("Failed to parse payment requirements: " ++ e))
    | .ok paymentReq =>
    match ExtractPaymentDetails paymentReq with
    | .error e => .error (.paymentError ("Failed to extract payment details: " ++ e))
    | .ok paymentOption =>
    let resourceURL := if paymentReq.resource.url = "" then url else paymentReq.resource.url
    match CreatePaymentPayload env paymentOption.payTo paymentOption.amount
        paymentOption.network resourceURL paymentReq.resource.description
        paymentOption.maxTimeoutSeconds paymentOption.extra paymentReq.extensions with
    | .error e => .error (.paymentError ("Failed to create payment: " ++ e))
    | .ok paymentPayload => .ok (paymentPayload, paymentOption)

/-- `handlePaymentAndRetry` of `client.go`: parse the challenge, sign, retry
once, classify the outcome, and update the spending ledger on a settled
retry. -/
def handlePaymentAndRetry (env : CryptoEnv) (st : ClientState) (url : String)
    (body : List Char) (resp : HttpResponse) (transport : List HttpResponse) :
    RequestOutcome :=
  match signChallenge env url resp with
  | .error e => ⟨.error e, st, []⟩
  | .ok (paymentPayload, paymentOption) =>
      let retryReq : HttpRequest :=
        { method := "POST", url := url, contentType := "application/json",
          paymentSignature := some paymentPayload, body := body }
      match transport with
      | [] => ⟨.error (.wrapped "retry request failed: transport closed"), st, [retryReq]⟩
      | retryResp :: _ =>
          if retryResp.status = 402 then
            ⟨.error (.paymentError "Payment was rejected. Check your wallet balance."),
              st, [retryReq]⟩
          else if retryResp.status ≠ 200 then
            ⟨.error (.apiError retryResp.status
                ("API error after payment: " ++ ⟨retryResp.body⟩)), st, [retryReq]⟩
          else
            match jsonDecodeValue retryResp.body >>= decodeChatResponseInto default with
            | .error e => ⟨.error (.wrapped ("failed to decode response: " ++ e)),
                st, [retryReq]⟩
            | .ok chatResp =>
                let st₁ := { st with sessionCalls := st.sessionCalls + 1 }
                let st₂ :=
                  if paymentOption.amount ≠ "" then
                    match scanFloatQ paymentOption.amount with
                    | some amountMicro =>
                        { st₁ with sessionTotalUSD :=
                            st₁.sessionTotalUSD + amountMicro / 1000000 }
                    | none => st₁
                  else st₁
                ⟨.ok chatResp, st₂, [retryReq]⟩

/-- `requestWithPayment` of `client.go`: encode the body, issue the request,
hand a 402 to `handlePaymentAndRetry`, classify everything else. -/
def requestWithPayment (env : CryptoEnv) (st : ClientState) (apiURL : String)
    (transport : List HttpResponse) (endpoint : String) (body : GoMap) : RequestOutcome :=
  let url := apiURL ++ endpoint
  let jsonBody := renderJson (.obj body)
  let req : HttpRequest :=
    { method := "POST", url := url, contentType := "application/json",
      paymentSignature := none, body := jsonBody }
  match transport with
  | [] => ⟨.error (.wrapped "request failed: transport closed"), st, [req]⟩
  | resp :: rest =>
      if resp.status = 402 then
        let out := handlePaymentAndRetry env st url jsonBody resp rest
        ⟨out.result, out.state, req :: out.trace⟩
      else if resp.status ≠ 200 then
        ⟨.error (.apiError resp.status ("API error: " ++ ⟨resp.body⟩)), st, [req]⟩
      else
        match jsonDecodeValue resp.body >>= decodeChatResponseInto default with
        | .error e => ⟨.error (.wrapped ("failed to decode response: " ++ e)), st, [req]⟩
        | .ok chatResp => ⟨.ok chatResp, st, [req]⟩

/-- `ChatCompletionOptions` as `client.go` consumes it (including the live
search fields the client reads). -/
structure ChatCompletionOptions where
  maxTokens : Int
  temperature : ℚ
  topP : ℚ
  searchParameters : Option GoMap
  search : Bool

/-- `DefaultMaxTokens` of `client.go`. -/
def DefaultMaxTokens : Int := 1024

/-- `ChatCompletion` of `client.go`: validate the inputs, build the request
body, then call `requestWithPayment`. -/
def ChatCompletion (env : CryptoEnv) (st : ClientState) (apiURL : String)
    (transport : List HttpResponse) (model : String) (messages : List ChatMessage)
    (opts : Option ChatCompletionOptions) : RequestOutcome :=
  if model = "" then
    ⟨.error (.validationError "model" "Model is required"), st, []⟩
  else if messages = [] then
    ⟨.error (.validationError "messages" "At least one message is required"), st, []⟩
  else
    let body₀ : GoMap :=
      mapInsert (mapInsert [] "model" (.str model)) "messages"
        (.arr (messages.map encodeChatMessage))
    let maxTokens : Int :=
      match opts with
      | some o => if o.maxTokens > 0 then o.maxTokens else DefaultMaxTokens
      | none => DefaultMaxTokens
    let body₁ : GoMap :=
      match opts with
      | none => body₀
      | some o =>
          let b₁ := if o.temperature > 0 then mapInsert body₀ "temperature" (.num o.temperature)
            else body₀
          let b₂ := if o.topP > 0 then mapInsert b₁ "top_p" (.num o.topP) else b₁
          match o.searchParameters with
          | some sp => mapInsert b₂ "search_parameters" (.obj sp)
          | none =>
              if o.search then mapInsert b₂ "search_parameters" (.obj [("mode", .str "on")])
              else b₂
    let body₂ : GoMap := mapInsert body₁ "max_tokens" (.num (maxTokens : ℚ))
    requestWithPayment env st apiURL transport "/v1/chat/completions" body₂

/-! Concrete fixtures: a deterministic crypto environment and a concrete
challenge/response exchange, used to evaluate the embedded functions on
closed inputs. -/

/-- A deterministic crypto environment (fixed clock, fixed entropy, fixed
hashes and signature bytes). -/
def envW : CryptoEnv :=
  { now := 1700000000,
    entropy := .ok (List.replicate 32 7),
    hashDomain := .ok (List.replicate 32 1),
    hashMessage := .ok (List.replicate 32 2),
    keccak := fun _ => List.replicate 32 3,
    sign := fun _ => .ok (List.replicate 65 0),
    walletAddress := "0xf39Fd6e51aad88F6F4ce6aB8827279cffFb92266" }

/-- A concrete server payment option. -/
def optW : PaymentOption :=
  { scheme := "exact", network := "eip155:8453", amount := "1000000",
    asset := USDCBase, payTo := "0x1234567890123456789012345678901234567890",
    maxTimeoutSeconds := 300, extra := none }

/-- A concrete payment requirement offering `optW`. -/
def reqW : PaymentRequirement :=
  { x402Version := 2, accepts := [optW],
    resource := { url := "https://blockrun.ai/api/v1/chat/completions",
                  description := "Test resource", mimeType := "application/json" },
    extensions := none }

/-- A payment option with a populated `extra` map (already in the canonical
key-sorted form a decoded Go map is stored in), for the round-trip witness. -/
def optR : PaymentOption :=
  { scheme := "exact", network := "eip155:8453", amount := "250000",
    asset := USDCBase, payTo := "0x1234567890123456789012345678901234567890",
    maxTimeoutSeconds := 600,
    extra := some [("maxAmountRequired", .str "250000"), ("name", .str "USD Coin")] }

/-- A payment requirement with maps present at both levels, for the
round-trip witness. -/
def reqR : PaymentRequirement :=
  { x402Version := 2, accepts := [optR],
    resource := { url := "https://blockrun.ai/api/v1/chat/completions",
                  description := "Test resource", mimeType := "application/json" },
    extensions := some [("a", .num 3), ("b", .bool true)] }

/-- `reqW` encoded the way a server sends it: JSON then base64. -/
def headerW : String :=
  ⟨encodeB64 ((renderJson (encodePaymentRequirement reqW)).map Char.toNat)⟩

/-- A concrete successful chat-completion response body. -/
def okBodyW : List Char :=
  renderJson (.obj [("id", .str "r1"), ("object", .str "chat.completion"),
    ("created", .num 1), ("model", .str "m"), ("choices", .arr []),
    ("usage", .obj [("prompt_tokens", .num 1), ("completion_tokens", .num 2),
                    ("total_tokens", .num 3)])])

/-- The value `okBodyW` decodes to. -/
def chatRespW : ChatResponse :=
  { id := "r1", object := "chat.completion", created := 1, model := "m", choices := [],
    usage := { promptTokens := 1, completionTokens := 2, totalTokens := 3 } }

/-- A 402 challenge carrying `headerW` in the `payment-required` header. -/
def challenge402W : HttpResponse :=
  { status := 402, paymentRequired := headerW, body := [] }

/-- A plain 200 response carrying `okBodyW`. -/
def ok200W : HttpResponse :=
  { status := 200, paymentRequired := "", body := okBodyW }

/-- A request body used by the concrete runs. -/
def bodyW : GoMap := [("model", .str "m")]

/-- The payload `createPaymentPayloadStruct` assembles in the deterministic
environment for `optW`, at timeout 300. -/
def payloadW : PaymentPayload :=
  match createPaymentPayloadStruct envW optW.payTo optW.amount optW.network
      "https://blockrun.ai/api/v1/chat/completions" "Test resource"
      optW.maxTimeoutSeconds optW.extra none with
  | .ok p => p
  | .error _ => default

/-- The base64 `PAYMENT-SIGNATURE` value produced for `optW` against `reqW`
in the deterministic environment. -/
def sigW : String :=
  match CreatePaymentPayload envW optW.payTo optW.amount optW.network
      reqW.resource.url reqW.resource.description optW.maxTimeoutSeconds optW.extra
      reqW.extensions with
  | .ok s => s
  | .error _ => ""

/-- A 402 response with no `payment-required` header whose JSON body carries
the x402 challenge marker together with a well-formed challenge (the body
fallback input of claim C4). -/
def respBodyOnlyW : HttpResponse :=
  { status := 402, paymentRequired := "",
    body := renderJson (.obj (goMapOfFields
      [("x402", .num 2), ("accepts", .arr [encodePaymentOption optW]),
       ("resource", encodeResourceInfo reqW.resource)])) }

/-- The `PaymentRequirement` the body of `respBodyOnlyW` decodes to (the
`x402` marker key does not match any struct field, so the version stays 0;
the challenge is otherwise well-formed and usable). -/
def reqBodyW : PaymentRequirement :=
  { x402Version := 0, accepts := [optW], resource := reqW.resource, extensions := none }

/-- A server option whose scheme and asset differ from the hardcoded values
the client echoes (the counterexample option of claim C5). -/
def optX : PaymentOption :=
  { scheme := "superexact", network := "eip155:1", amount := "5",
    asset := "0x0000000000000000000000000000000000000000", payTo := "0xPayee",
    maxTimeoutSeconds := 60, extra := none }

/-- The payload assembled for `optX`, as `handlePaymentAndRetry` would
request it. -/
def payloadX : PaymentPayload :=
  match createPaymentPayloadStruct envW optX.payTo optX.amount optX.network
      "u" "d" optX.maxTimeoutSeconds optX.extra none with
  | .ok p => p
  | .error _ => default

/-- The payload assembled for the negative amount `"-1"` (the counterexample
input of claim C7). -/
def payloadNeg : PaymentPayload :=
  match createPaymentPayloadStruct envW "0xR" "-1" "eip155:8453" "u" "d" 30 none none with
  | .ok p => p
  | .error _ => default

/-! General lemmas about the embedded functions. -/

theorem parseDigits_all (ds : List Char) (acc : Nat) (h : ds.all isDigitChar = true) :
    parseDigits ds acc = (ds.foldl (fun a c => a * 10 + (c.toNat - 48)) acc, []) := by
  induction ds generalizing acc with
  | nil => rfl
  | cons c cs ih =>
      simp only [List.all_cons, Bool.and_eq_true] at h
      simp [parseDigits, h.1, ih _ h.2]

/-- Any amount string `big.Int.SetString` accepts, `Sscanf("%f")` reads back
as the same value. -/
theorem bigInt_scan_agree {s : String} {v : Int} (h : bigIntSetString10 s = some v) :
    scanFloatQ s = some (v : ℚ) := by
  unfold bigIntSetString10 at h
  unfold scanFloatQ
  dsimp only [] at h ⊢
  rcases hdv : digitsVal (splitSign s.data).2 with _ | n
  · rw [hdv] at h; exact absurd h (by simp)
  rw [hdv] at h
  simp at h
  have hcond := hdv
  unfold digitsVal at hcond
  split at hcond
  case isTrue hc2 =>
    obtain ⟨hne, hdig⟩ := hc2
    simp only [Option.some_inj] at hcond
    rcases hrest : (splitSign s.data).2 with _ | ⟨c, cs⟩
    · rw [hrest] at hne; simp at hne
    have hdig' : (c :: cs).all isDigitChar = true := by rw [← hrest]; exact hdig
    have hc : isDigitChar c = true := by
      simp only [List.all_cons, Bool.and_eq_true] at hdig'
      exact hdig'.1
    rw [hrest] at hcond
    simp only [hc, if_pos]
    rw [parseDigits_all (c :: cs) 0 hdig']
    dsimp only []
    rw [hcond]
    rcases hsg : (splitSign s.data).1 with _ | _
    · rw [hsg] at h
      simp only [Bool.false_eq_true, if_false] at h ⊢
      rw [← h]
      simp
    · rw [hsg] at h
      simp only [if_pos] at h ⊢
      rw [← h]
      push_cast
      ring_nf
  case isFalse => exact absurd hcond (by simp)

/-- Success shape of the payload builder: what every field of a successfully
assembled payload is, and which oracle results a success requires. -/
theorem createPaymentPayloadStruct_ok_elim {env : CryptoEnv}
    {r a n u d : String} {mts : Int} {ex exts : Option GoMap} {p : PaymentPayload}
    (h : createPaymentPayloadStruct env r a n u d mts ex exts = .ok p) :
    ∃ nb dh mh sg amt,
      env.entropy = .ok nb ∧ bigIntSetString10 a = some amt ∧
      env.hashDomain = .ok dh ∧ env.hashMessage = .ok mh ∧
      env.sign (env.keccak ([0x19, 0x01] ++ dh ++ mh)) = .ok sg ∧
      p = { x402Version := 2,
            resource := { url := u, description := d, mimeType := "application/json" },
            accepted := { scheme := "exact", network := n, amount := a,
                          asset := USDCBase, payTo := r,
                          maxTimeoutSeconds := mts,
                          extra := some [("name", .str (match goLookupString ex "name" with
                                            | some s => s
                                            | none => "USD Coin")),
                                         ("version", .str (match goLookupString ex "version" with
                                            | some s => s
                                            | none => "2"))] },
            payload := { signature := "0x" ++ bytesToHex (normalizeSigV sg),
                         authorization := { fromAddr := env.walletAddress, toAddr := r,
                                            value := a,
                                            validAfter :=
                                              ⟨intToChars (wrapInt64 (env.now - 600))⟩,
                                            validBefore :=
                                              ⟨intToChars (wrapInt64 (env.now + mts))⟩,
                                            nonce := "0x" ++ bytesToHex nb } },
            extensions := exts } := by
  unfold createPaymentPayloadStruct createNonce at h
  rcases he : env.entropy with e | nb
  · simp only [he] at h; exact Except.noConfusion h
  simp only [he] at h
  rcases ha : bigIntSetString10 a with _ | amt
  · simp only [ha] at h; exact Except.noConfusion h
  simp only [ha] at h
  rcases hd : env.hashDomain with e | dh
  · simp only [hd] at h; exact Except.noConfusion h
  simp only [hd] at h
  rcases hm : env.hashMessage with e | mh
  · simp only [hm] at h; exact Except.noConfusion h
  simp only [hm] at h
  rcases hs : env.sign (env.keccak ([25, 1] ++ dh ++ mh)) with e | sg
  · simp only [hs] at h; exact Except.noConfusion h
  simp only [hs] at h
  injection h with h
  exact ⟨nb, dh, mh, sg, amt, rfl, rfl, rfl, rfl, hs, h.symm⟩

/-- An invalid amount string always makes the payload builder fail. -/
theorem createPaymentPayloadStruct_invalid_amount {env : CryptoEnv}
    {r a n u d : String} {mts : Int} {ex exts : Option GoMap}
    (ha : bigIntSetString10 a = none) :
    ∃ e, createPaymentPayloadStruct env r a n u d mts ex exts = .error e := by
  unfold createPaymentPayloadStruct createNonce
  rcases he : env.entropy with e | nb
  · exact ⟨_, rfl⟩
  · simp only [ha]
    exact ⟨_, rfl⟩

/-- The retry half of the orchestrator issues either no request (challenge
processing failed) or exactly one, with the original body and a
`PAYMENT-SIGNATURE` header. -/
theorem handlePaymentAndRetry_trace_shape (env : CryptoEnv) (st : ClientState)
    (url : String) (body : List Char) (resp : HttpResponse) (transport : List HttpResponse) :
    (handlePaymentAndRetry env st url body resp transport).trace = [] ∨
    ∃ sig, (handlePaymentAndRetry env st url body resp transport).trace =
      [{ method := "POST", url := url, contentType := "application/json",
         paymentSignature := some sig, body := body }] := by
  unfold handlePaymentAndRetry
  rcases hs : signChallenge env url resp with e | ⟨sig, opt⟩
  · exact .inl rfl
  rcases transport with _ | ⟨retryResp, rest⟩
  · exact .inr ⟨sig, rfl⟩
  by_cases h402 : retryResp.status = 402
  · simp only [h402, if_pos]
    exact .inr ⟨sig, rfl⟩
  by_cases h200 : retryResp.status = 200
  · simp only [if_neg h402, h200]
    rcases hd : jsonDecodeValue retryResp.body >>= decodeChatResponseInto default with e | cr
    · simp only [hd]; right; exact ⟨sig, by simp⟩
    · simp only [hd]; right; exact ⟨sig, by simp⟩
  · simp only [if_neg h402, if_neg, h200]
    right; exact ⟨sig, by simp [h200]⟩

/-- A second 402 after a retry was issued is terminal: the fixed
`PaymentError` is returned and the ledger is untouched. -/
theorem handlePaymentAndRetry_second402 (env : CryptoEnv) (st : ClientState)
    (url : String) (body : List Char) (resp : HttpResponse) {resp₂ : HttpResponse}
    {rest : List HttpResponse} (h402 : resp₂.status = 402)
    (hne : (handlePaymentAndRetry env st url body resp (resp₂ :: rest)).trace ≠ []) :
    (handlePaymentAndRetry env st url body resp (resp₂ :: rest)).result =
      .error (.paymentError "Payment was rejected. Check your wallet balance.") ∧
    (handlePaymentAndRetry env st url body resp (resp₂ :: rest)).state = st := by
  unfold handlePaymentAndRetry at *
  rcases hs : signChallenge env url resp with e | ⟨sig, opt⟩
  · simp [hs] at hne
  · simp [hs, h402]

/-- Every error outcome of the retry half leaves the session state
unchanged. -/
theorem handlePaymentAndRetry_error_state (env : CryptoEnv) (st : ClientState)
    (url : String) (body : List Char) (resp : HttpResponse) (transport : List HttpResponse)
    (e : GoError)
    (he : (handlePaymentAndRetry env st url body resp transport).result = .error e) :
    (handlePaymentAndRetry env st url body resp transport).state = st := by
  unfold handlePaymentAndRetry at *
  rcases hs : signChallenge env url resp with e2 | ⟨sig, opt⟩
  · simp [hs]
  rcases transport with _ | ⟨retryResp, rest⟩
  · simp [hs]
  by_cases h402 : retryResp.status = 402
  · simp [hs, h402]
  by_cases h200 : retryResp.status = 200
  · rcases hd : jsonDecodeValue retryResp.body >>= decodeChatResponseInto default with e3 | cr
    · simp [hs, h402, h200, hd]
    · simp [hs, h402, h200, hd] at he
  · simp [hs, h402, h200]

theorem parsePaymentRequired_empty :
    ParsePaymentRequired "" = .error "failed to parse payment required: unexpected end of JSON" := by
  rfl

theorem signChallenge_ok_elim {env : CryptoEnv} {url : String} {resp : HttpResponse}
    {sig : String} {opt : PaymentOption}
    (h : signChallenge env url resp = .ok (sig, opt)) :
    ∃ req₀, ParsePaymentRequired (resolvePaymentHeader resp) = .ok req₀ ∧
      ExtractPaymentDetails req₀ = .ok opt ∧
      CreatePaymentPayload env opt.payTo opt.amount opt.network
        (if req₀.resource.url = "" then url else req₀.resource.url)
        req₀.resource.description opt.maxTimeoutSeconds opt.extra req₀.extensions = .ok sig := by
  unfold signChallenge at h
  by_cases h0 : resolvePaymentHeader resp = ""
  · rw [if_pos h0] at h; exact absurd h (by simp)
  rw [if_neg h0] at h
  rcases hp : ParsePaymentRequired (resolvePaymentHeader resp) with e | req₀
  · rw [hp] at h; exact absurd h (by simp)
  rw [hp] at h
  dsimp only [] at h
  rcases hx : ExtractPaymentDetails req₀ with e | opt₀
  · rw [hx] at h; exact absurd h (by simp)
  rw [hx] at h
  dsimp only [] at h
  rcases hc : CreatePaymentPayload env opt₀.payTo opt₀.amount opt₀.network
      (if req₀.resource.url = "" then url else req₀.resource.url)
      req₀.resource.description opt₀.maxTimeoutSeconds opt₀.extra req₀.extensions with e | pl
  · rw [hc] at h; exact absurd h (by simp)
  rw [hc] at h
  simp only [Except.ok.injEq, Prod.mk.injEq] at h
  obtain ⟨hsig, hopt⟩ := h
  subst hsig; subst hopt
  exact ⟨req₀, rfl, hx, hc⟩

theorem signChallenge_intro {env : CryptoEnv} {url : String} {resp : HttpResponse}
    {req₀ : PaymentRequirement} {opt : PaymentOption} {sig : String}
    (hp : ParsePaymentRequired (resolvePaymentHeader resp) = .ok req₀)
    (hx : ExtractPaymentDetails req₀ = .ok opt)
    (hc : CreatePaymentPayload env opt.payTo opt.amount opt.network
        (if req₀.resource.url = "" then url else req₀.resource.url)
        req₀.resource.description opt.maxTimeoutSeconds opt.extra req₀.extensions = .ok sig) :
    signChallenge env url resp = .ok (sig, opt) := by
  have h0 : resolvePaymentHeader resp ≠ "" := by
    intro hh
    rw [hh, parsePaymentRequired_empty] at hp
    exact Except.noConfusion hp
  unfold signChallenge
  rw [if_neg h0, hp]
  dsimp only []
  rw [hx]
  dsimp only []
  rw [hc]

theorem b64Char_ne_eq (n : Nat) : b64Char n ≠ '=' := by
  rcases Nat.lt_or_ge n 64 with h | h
  · interval_cases n <;> decide
  · unfold b64Char
    rw [List.getD_eq_default]
    · decide
    · have hlen : b64Alphabet.length = 64 := by decide
      omega

theorem b64Val_b64Char (n : Nat) (h : n < 64) : b64Val (b64Char n) = some n := by
  interval_cases n <;> decide

theorem decodeB64_encodeB64 (bs : List Nat) (hb : ∀ b ∈ bs, b < 256) :
    decodeB64 (encodeB64 bs) = .ok bs := by
  have main : ∀ n (bs : List Nat), bs.length ≤ n → (∀ b ∈ bs, b < 256) →
      decodeB64 (encodeB64 bs) = .ok bs := by
    intro n
    induction n with
    | zero =>
        intro bs hlen _
        have : bs = [] := by
          cases bs with
          | nil => rfl
          | cons a l => simp at hlen
        subst this; rfl
    | succ n ih =>
        intro bs hlen hb
        match bs with
        | [] => rfl
        | [b₀] =>
            have h0 : b₀ < 256 := hb b₀ (by simp)
            show decodeB64 [b64Char (b₀ / 4), b64Char (b₀ % 4 * 16), '=', '='] = .ok [b₀]
            rw [decodeB64.eq_def]
            dsimp only []
            rw [if_pos ⟨rfl, rfl, rfl⟩, b64Val_b64Char _ (by omega), b64Val_b64Char _ (by omega)]
            dsimp only []
            simp only [Except.ok.injEq, List.cons.injEq, and_true]
            omega
        | [b₀, b₁] =>
            have h0 : b₀ < 256 := hb b₀ (by simp)
            have h1 : b₁ < 256 := hb b₁ (by simp)
            show decodeB64 [b64Char (b₀ / 4), b64Char (b₀ % 4 * 16 + b₁ / 16),
                b64Char (b₁ % 16 * 4), '='] = .ok [b₀, b₁]
            rw [decodeB64.eq_def]
            dsimp only []
            rw [if_neg (by rintro ⟨-, h, -⟩; exact b64Char_ne_eq _ h), if_pos ⟨rfl, rfl⟩,
                b64Val_b64Char _ (by omega), b64Val_b64Char _ (by omega),
                b64Val_b64Char _ (by omega)]
            dsimp only []
            simp only [Except.ok.injEq, List.cons.injEq, and_true]
            omega
        | b₀ :: b₁ :: b₂ :: rest =>
            have h0 : b₀ < 256 := hb b₀ (by simp)
            have h1 : b₁ < 256 := hb b₁ (by simp)
            have h2 : b₂ < 256 := hb b₂ (by simp)
            have hrest : ∀ b ∈ rest, b < 256 := fun b hbm => hb b (by simp [hbm])
            have hlen2 : rest.length ≤ n := by simp at hlen; omega
            show decodeB64 (b64Char (b₀ / 4) :: b64Char (b₀ % 4 * 16 + b₁ / 16) ::
                b64Char (b₁ % 16 * 4 + b₂ / 64) :: b64Char (b₂ % 64) :: encodeB64 rest) =
              .ok (b₀ :: b₁ :: b₂ :: rest)
            rw [decodeB64.eq_def]
            dsimp only []
            rw [if_neg (by rintro ⟨-, h, -⟩; exact b64Char_ne_eq _ h),
                if_neg (by rintro ⟨-, h⟩; exact b64Char_ne_eq _ h),
                b64Val_b64Char _ (by omega), b64Val_b64Char _ (by omega),
                b64Val_b64Char _ (by omega), b64Val_b64Char _ (by omega),
                ih rest hlen2 hrest]
            dsimp only []
            simp only [Except.ok.injEq, List.cons.injEq, and_true]
            omega
  exact main bs.length bs le_rfl hb


theorem digitChar_isDigit (d : Nat) (h : d < 10) : isDigitChar (digitChar d) = true := by
  interval_cases d <;> decide

theorem digitChar_toNat (d : Nat) (h : d < 10) : (digitChar d).toNat - 48 = d := by
  interval_cases d <;> decide

theorem natToCharsAux_ne_nil : ∀ fuel n, n < fuel → natToCharsAux fuel n ≠ [] := by
  intro fuel
  induction fuel with
  | zero => intro n h; omega
  | succ f ih =>
      intro n _
      by_cases hn : n < 10
      · simp [natToCharsAux, hn]
      · simp [natToCharsAux, hn]

theorem natToCharsAux_all : ∀ fuel n, n < fuel → (natToCharsAux fuel n).all isDigitChar = true := by
  intro fuel
  induction fuel with
  | zero => intro n h; omega
  | succ f ih =>
      intro n h
      by_cases hn : n < 10
      · simp [natToCharsAux, hn, digitChar_isDigit n hn]
      · have h1 : n / 10 < f := by omega
        have h2 : n % 10 < 10 := by omega
        simp [natToCharsAux, hn, List.all_append, ih (n / 10) h1, digitChar_isDigit (n % 10) h2]

theorem parseDigitsNatToCharsAux : ∀ fuel n acc rest, n < fuel →
    parseDigits (natToCharsAux fuel n ++ rest) acc =
      parseDigits rest (acc * 10 ^ (natToCharsAux fuel n).length + n) := by
  intro fuel
  induction fuel with
  | zero => intro n _ _ h; omega
  | succ f ih =>
      intro n acc rest h
      by_cases hn : n < 10
      · simp only [natToCharsAux, if_pos hn, List.cons_append, List.nil_append,
          List.length_cons, List.length_nil]
        rw [parseDigits, if_pos (digitChar_isDigit n hn), digitChar_toNat n hn]
        norm_num
      · have h1 : n / 10 < f := by omega
        have h2 : n % 10 < 10 := by omega
        simp only [natToCharsAux, if_neg hn, List.append_assoc, List.cons_append,
          List.nil_append]
        rw [ih (n / 10) acc (digitChar (n % 10) :: rest) h1]
        rw [parseDigits, if_pos (digitChar_isDigit (n % 10) h2), digitChar_toNat (n % 10) h2]
        congr 1
        rw [List.length_append, List.length_cons, List.length_nil]
        have hpow : (10 : ℕ) ^ ((natToCharsAux f (n / 10)).length + 1) =
            10 ^ (natToCharsAux f (n / 10)).length * 10 := pow_succ 10 _
        rw [hpow]
        have hring : acc * (10 ^ (natToCharsAux f (n / 10)).length * 10) =
            acc * 10 ^ (natToCharsAux f (n / 10)).length * 10 := by ring
        rw [hring]
        set A := acc * 10 ^ (natToCharsAux f (n / 10)).length with hA
        omega

theorem parseDigits_natToChars (n : Nat) (rest : List Char) (ht : tailOkNum rest = true) :
    parseDigits (natToChars n ++ rest) 0 = (n, rest) := by
  unfold natToChars
  rw [parseDigitsNatToCharsAux _ _ _ _ (by omega)]
  rw [Nat.zero_mul, Nat.zero_add]
  cases rest with
  | nil => rfl
  | cons c cs =>
      unfold tailOkNum at ht
      simp only [Bool.and_eq_true, Bool.not_eq_true', decide_eq_true_eq] at ht
      rw [parseDigits, if_neg (by simp [ht.1])]

theorem natToChars_head (n : Nat) : ∃ c cs, natToChars n = c :: cs ∧ isDigitChar c = true := by
  have hne := natToCharsAux_ne_nil (n + 1) n (by omega)
  have hall := natToCharsAux_all (n + 1) n (by omega)
  unfold natToChars
  rcases h : natToCharsAux (n + 1) n with _ | ⟨c, cs⟩
  · exact absurd h hne
  · rw [h] at hall
    simp only [List.all_cons, Bool.and_eq_true] at hall
    exact ⟨c, cs, rfl, hall.1⟩

theorem parseNumAfterSign_natToChars (n : Nat) (rest : List Char) (ht : tailOkNum rest = true) :
    parseNumAfterSign (natToChars n ++ rest) = .ok ((n : ℚ), rest) := by
  obtain ⟨c, cs, hc, hd⟩ := natToChars_head n
  have hsplit : natToChars n ++ rest = c :: (cs ++ rest) := by rw [hc]; rfl
  rw [hsplit, parseNumAfterSign, if_pos hd]
  have hpd : parseDigits (c :: (cs ++ rest)) 0 = (n, rest) := by
    rw [← List.cons_append, ← hc]
    exact parseDigits_natToChars n rest ht
  rw [hpd]
  cases rest with
  | nil => rfl
  | cons c₀ cs₀ =>
      unfold tailOkNum at ht
      simp only [Bool.and_eq_true, Bool.not_eq_true', decide_eq_true_eq] at ht
      cases cs₀ with
      | nil => rfl
      | cons c₂ cs₂ =>
          dsimp only []
          rw [if_neg (by rintro ⟨h, -⟩; exact ht.2 h)]


theorem skipWs_cons (c : Char) (rest : List Char) (h : wsChar c = false) :
    skipWs (c :: rest) = c :: rest := by
  rw [skipWs, h]; rfl

theorem isDigit_facts (c : Char) (h : isDigitChar c = true) :
    c ≠ 'n' ∧ c ≠ 't' ∧ c ≠ 'f' ∧ c ≠ '"' ∧ c ≠ '[' ∧ c ≠ '{' ∧ c ≠ '-' ∧
      wsChar c = false ∧ c ≠ ']' ∧ c ≠ '}' ∧ c ≠ ',' ∧ c ≠ ':' := by
  have hb : 48 ≤ c.toNat ∧ c.toNat ≤ 57 := by simpa [isDigitChar] using h
  refine ⟨?_, ?_, ?_, ?_, ?_, ?_, ?_, ?_, ?_, ?_, ?_, ?_⟩ <;>
    first
      | (rintro rfl; revert hb; decide)
      | (by_contra hw
         have hw2 : wsChar c = true := by simpa using hw
         simp only [wsChar, Bool.or_eq_true, decide_eq_true_eq] at hw2
         rcases hw2 with ((rfl | rfl) | rfl) | rfl <;> revert hb <;> decide)

theorem safeChar_facts (c : Char) (h : safeChar c = true) :
    c ≠ '"' ∧ c ≠ '\\' ∧ escapeChar c = [c] := by
  have hb : (32 ≤ c.toNat ∧ c.toNat < 127) ∧ c ≠ '"' ∧ c ≠ '\\' := by
    simpa [safeChar, and_assoc] using h
  obtain ⟨⟨h32, h127⟩, hq, hbs⟩ := hb
  refine ⟨hq, hbs, ?_⟩
  rw [escapeChar, if_neg hq, if_neg hbs, if_neg ?hn, if_neg ?ht, if_neg ?hr]
  case hn => rintro rfl; revert h32; decide
  case ht => rintro rfl; revert h32; decide
  case hr => rintro rfl; revert h32; decide

theorem escapeChars_safe (ds : List Char) (h : ds.all safeChar = true) :
    escapeChars ds = ds := by
  induction ds with
  | nil => rfl
  | cons c cs ih =>
      simp only [List.all_cons, Bool.and_eq_true] at h
      rw [escapeChars, List.foldr_cons, (safeChar_facts c h.1).2.2]
      have : cs.foldr (fun c acc => escapeChar c ++ acc) [] = escapeChars cs := rfl
      rw [this, ih h.2]
      rfl

theorem parseStringBody_safe (ds : List Char) (rest : List Char)
    (h : ds.all safeChar = true) :
    parseStringBody (ds ++ '"' :: rest) = .ok (ds, rest) := by
  induction ds with
  | nil =>
      rw [List.nil_append, parseStringBody.eq_def]
      dsimp only []
      rw [if_pos rfl]
  | cons c cs ih =>
      simp only [List.all_cons, Bool.and_eq_true] at h
      obtain ⟨hq, hbs, -⟩ := safeChar_facts c h.1
      rw [List.cons_append, parseStringBody.eq_def]
      dsimp only []
      rw [if_neg hq, if_neg hbs, ih h.2]

theorem render_head (j : Json) (hv : jvalid j = true) :
    ∃ c cs, renderJson j = c :: cs ∧ c ≠ ']' ∧ c ≠ '}' ∧ wsChar c = false := by
  cases j with
  | num q =>
      have hden : q.den = 1 := by simpa [jvalid] using hv
      have hr : renderJson (.num q) = intToChars q.num := by
        show ratToChars q = _
        rw [ratToChars, if_pos hden]
      by_cases hneg : q.num < 0
      · refine ⟨'-', natToChars q.num.natAbs, ?_, ?_, ?_, ?_⟩
        · rw [hr, intToChars, if_pos hneg]
        · decide
        · decide
        · decide
      · obtain ⟨c, cs, hc, hd⟩ := natToChars_head q.num.natAbs
        obtain ⟨-, -, -, -, -, -, -, hws, hrb, hcb, -, -⟩ := isDigit_facts c hd
        refine ⟨c, cs, ?_, hrb, hcb, hws⟩
        rw [hr, intToChars, if_neg hneg, hc]
  | bool b =>
      cases b with
      | false => refine ⟨'f', _, rfl, ?_, ?_, ?_⟩ <;> decide
      | true => refine ⟨'t', _, rfl, ?_, ?_, ?_⟩ <;> decide
  | null => refine ⟨'n', _, rfl, ?_, ?_, ?_⟩ <;> decide
  | str s => refine ⟨'"', _, rfl, ?_, ?_, ?_⟩ <;> decide
  | arr xs => refine ⟨'[', _, rfl, ?_, ?_, ?_⟩ <;> decide
  | obj fs => refine ⟨'{', _, rfl, ?_, ?_, ?_⟩ <;> decide

theorem parseJ_num (fuel : Nat) (q : ℚ) (rest : List Char) (hden : q.den = 1)
    (ht : tailOkNum rest = true) :
    parseJ (fuel + 1) (renderJson (.num q) ++ rest) = .ok (.num q, rest) := by
  have hq : (q.num : ℚ) = q := by
    conv_rhs => rw [← Rat.num_div_den q, hden]
    norm_num
  have hr : renderJson (.num q) = intToChars q.num := by
    show ratToChars q = _
    rw [ratToChars, if_pos hden]
  rw [hr, intToChars]
  by_cases hneg : q.num < 0
  · rw [if_pos hneg]
    simp only [List.cons_append]
    rw [parseJ, skipWs_cons _ _ (by decide)]
    dsimp only []
    rw [if_neg (by decide), if_neg (by decide), if_neg (by decide), if_neg (by decide),
        if_neg (by decide), if_neg (by decide), if_pos rfl,
        parseNumAfterSign_natToChars _ _ ht]
    dsimp only []
    have habs : ((q.num.natAbs : ℚ)) = -(q.num : ℚ) := by
      have h1 : ((q.num.natAbs : ℤ)) = -q.num := by omega
      have h2 : ((q.num.natAbs : ℚ)) = (((q.num.natAbs : ℤ)) : ℚ) := (Int.cast_natCast _).symm
      rw [h2, h1]
      push_cast
      ring
    rw [habs, neg_neg, hq]
  · rw [if_neg hneg]
    obtain ⟨c, cs, hc, hd⟩ := natToChars_head q.num.natAbs
    obtain ⟨hn, htc, hf, hqc, hlb, hob, hmc, hws, -, -, -, -⟩ := isDigit_facts c hd
    have hsplit : natToChars q.num.natAbs ++ rest = c :: (cs ++ rest) := by rw [hc]; rfl
    rw [hsplit, parseJ, skipWs_cons _ _ hws]
    dsimp only []
    rw [if_neg hn, if_neg htc, if_neg hf, if_neg hqc, if_neg hlb, if_neg hob, if_neg hmc,
        if_pos hd]
    have hback : c :: (cs ++ rest) = natToChars q.num.natAbs ++ rest := hsplit.symm
    rw [hback, parseNumAfterSign_natToChars _ _ ht]
    dsimp only []
    have habs : ((q.num.natAbs : ℚ)) = (q.num : ℚ) := by
      have h1 : ((q.num.natAbs : ℤ)) = q.num := by omega
      have h2 : ((q.num.natAbs : ℚ)) = (((q.num.natAbs : ℤ)) : ℚ) := (Int.cast_natCast _).symm
      rw [h2, h1]
    rw [habs, hq]


theorem jsize_pos (j : Json) : 1 ≤ jsize j := by
  cases j <;> simp [jsize] <;> omega

theorem renderStr_safe (k : String) (h : k.data.all safeChar = true) :
    renderStrChars k = '"' :: (k.data ++ ['"']) := by
  rw [renderStrChars, escapeChars_safe _ h]

mutual

theorem parseJ_render : ∀ (j : Json) (fuel : Nat) (rest : List Char), jvalid j = true →
    jsize j ≤ fuel → tailOkNum rest = true → parseJ fuel (renderJson j ++ rest) = .ok (j, rest)
  | .null, fuel, rest => by
      intro _ hs ht
      simp only [jsize] at hs
      obtain ⟨f, rfl⟩ : ∃ f, fuel = f + 1 := ⟨fuel - 1, by omega⟩
      show parseJ (f + 1) (['n', 'u', 'l', 'l'] ++ rest) = .ok (.null, rest)
      simp only [List.cons_append, List.nil_append]
      rw [parseJ, skipWs_cons _ _ (by decide)]
      dsimp only []
      rw [if_pos rfl]
      simp [expectChars]
  | .bool true, fuel, rest => by
      intro _ hs ht
      simp only [jsize] at hs
      obtain ⟨f, rfl⟩ : ∃ f, fuel = f + 1 := ⟨fuel - 1, by omega⟩
      show parseJ (f + 1) (['t', 'r', 'u', 'e'] ++ rest) = .ok (.bool true, rest)
      simp only [List.cons_append, List.nil_append]
      rw [parseJ, skipWs_cons _ _ (by decide)]
      dsimp only []
      rw [if_neg (by decide), if_pos rfl]
      simp [expectChars]
  | .bool false, fuel, rest => by
      intro _ hs ht
      simp only [jsize] at hs
      obtain ⟨f, rfl⟩ : ∃ f, fuel = f + 1 := ⟨fuel - 1, by omega⟩
      show parseJ (f + 1) (['f', 'a', 'l', 's', 'e'] ++ rest) = .ok (.bool false, rest)
      simp only [List.cons_append, List.nil_append]
      rw [parseJ, skipWs_cons _ _ (by decide)]
      dsimp only []
      rw [if_neg (by decide), if_neg (by decide), if_pos rfl]
      simp [expectChars]
  | .num q, fuel, rest => by
      intro hv hs ht
      have hden : q.den = 1 := by simpa [jvalid] using hv
      simp only [jsize] at hs
      obtain ⟨f, rfl⟩ : ∃ f, fuel = f + 1 := ⟨fuel - 1, by omega⟩
      exact parseJ_num f q rest hden ht
  | .str s, fuel, rest => by
      intro hv hs ht
      have hsafe : s.data.all safeChar = true := by simpa [jvalid] using hv
      simp only [jsize] at hs
      obtain ⟨f, rfl⟩ : ∃ f, fuel = f + 1 := ⟨fuel - 1, by omega⟩
      have hr : renderJson (.str s) ++ rest = '"' :: (s.data ++ '"' :: rest) := by
        show renderStrChars s ++ rest = _
        rw [renderStr_safe s hsafe]
        simp [List.append_assoc]
      rw [hr, parseJ, skipWs_cons _ _ (by decide)]
      dsimp only []
      rw [if_neg (by decide), if_neg (by decide), if_neg (by decide), if_pos rfl,
          parseStringBody_safe _ _ hsafe]
  | .arr [], fuel, rest => by
      intro _ hs ht
      simp only [jsize] at hs
      obtain ⟨f, rfl⟩ : ∃ f, fuel = f + 1 := ⟨fuel - 1, by omega⟩
      show parseJ (f + 1) (('[' :: (renderList [] ++ [']'])) ++ rest) = .ok (.arr [], rest)
      simp only [renderList, List.nil_append, List.cons_append]
      rw [parseJ, skipWs_cons _ _ (by decide)]
      dsimp only []
      rw [if_neg (by decide), if_neg (by decide), if_neg (by decide), if_neg (by decide),
          if_pos rfl, skipWs_cons _ _ (by decide)]
      dsimp only []
      rw [if_pos rfl]
  | .arr (x :: xs), fuel, rest => by
      intro hv hs ht
      have hv2 : jvalid x = true ∧ jvalidList xs = true := by
        simpa [jvalid, jvalidList] using hv
      simp only [jsize, jsizeList] at hs
      obtain ⟨f, rfl⟩ : ∃ f, fuel = f + 1 := ⟨fuel - 1, by omega⟩
      obtain ⟨c, cs, hc, hrb, -, hws⟩ := render_head x hv2.1
      obtain ⟨cs2, hdec⟩ : ∃ cs2, renderList (x :: xs) = c :: cs2 := by
        cases xs with
        | nil => exact ⟨cs, by rw [renderList, hc]⟩
        | cons y ys =>
            refine ⟨cs ++ ',' :: renderList (y :: ys), ?_⟩
            rw [renderList.eq_3, hc]
            · rfl
            · exact fun h => List.noConfusion h
      show parseJ (f + 1) (('[' :: (renderList (x :: xs) ++ [']'])) ++ rest) =
        .ok (.arr (x :: xs), rest)
      have hin : ('[' :: (renderList (x :: xs) ++ [']'])) ++ rest =
          '[' :: (renderList (x :: xs) ++ ']' :: rest) := by simp
      rw [hin, parseJ, skipWs_cons _ _ (by decide)]
      dsimp only []
      rw [if_neg (by decide), if_neg (by decide), if_neg (by decide), if_neg (by decide),
          if_pos rfl]
      have hin2 : renderList (x :: xs) ++ ']' :: rest = c :: (cs2 ++ ']' :: rest) := by
        rw [hdec]; rfl
      rw [hin2, skipWs_cons _ _ hws]
      dsimp only []
      rw [if_neg hrb, ← hin2,
          parseElems_render (x :: xs) f rest hv (by simp [jsizeList]; omega) (List.cons_ne_nil _ _)]
  | .obj [], fuel, rest => by
      intro _ hs ht
      simp only [jsize] at hs
      obtain ⟨f, rfl⟩ : ∃ f, fuel = f + 1 := ⟨fuel - 1, by omega⟩
      show parseJ (f + 1) (('{' :: (renderFields [] ++ ['}'])) ++ rest) = .ok (.obj [], rest)
      simp only [renderFields, List.nil_append, List.cons_append]
      rw [parseJ, skipWs_cons _ _ (by decide)]
      dsimp only []
      rw [if_neg (by decide), if_neg (by decide), if_neg (by decide), if_neg (by decide),
          if_neg (by decide), if_pos rfl, skipWs_cons _ _ (by decide)]
      dsimp only []
      rw [if_pos rfl]
  | .obj ((k, v) :: fs), fuel, rest => by
      intro hv hs ht
      have hv2 : k.data.all safeChar = true ∧ jvalid v = true ∧ jvalidFields fs = true := by
        simpa [jvalid, jvalidFields, and_assoc] using hv
      simp only [jsize, jsizeFields] at hs
      obtain ⟨f, rfl⟩ : ∃ f, fuel = f + 1 := ⟨fuel - 1, by omega⟩
      obtain ⟨cs2, hdec⟩ : ∃ cs2, renderFields ((k, v) :: fs) = '"' :: cs2 := by
        cases fs with
        | nil =>
            refine ⟨escapeChars k.data ++ ['"'] ++ (':' :: renderJson v), ?_⟩
            rw [renderFields, renderStrChars]
            simp
        | cons p ps =>
            refine ⟨escapeChars k.data ++ ['"'] ++ (':' :: renderJson v) ++
              ',' :: renderFields (p :: ps), ?_⟩
            rw [renderFields.eq_3, renderStrChars]
            · simp
            · exact fun h => List.noConfusion h
      show parseJ (f + 1) (('{' :: (renderFields ((k, v) :: fs) ++ ['}'])) ++ rest) =
        .ok (.obj ((k, v) :: fs), rest)
      have hin : ('{' :: (renderFields ((k, v) :: fs) ++ ['}'])) ++ rest =
          '{' :: (renderFields ((k, v) :: fs) ++ '}' :: rest) := by simp
      rw [hin, parseJ, skipWs_cons _ _ (by decide)]
      dsimp only []
      rw [if_neg (by decide), if_neg (by decide), if_neg (by decide), if_neg (by decide),
          if_neg (by decide), if_pos rfl]
      have hin2 : renderFields ((k, v) :: fs) ++ '}' :: rest = '"' :: (cs2 ++ '}' :: rest) := by
        rw [hdec]; rfl
      rw [hin2, skipWs_cons _ _ (by decide)]
      dsimp only []
      rw [if_neg (by decide), ← hin2,
          parseFields_render ((k, v) :: fs) f rest hv (by simp [jsizeFields]; omega) (List.cons_ne_nil _ _)]

theorem parseElems_render : ∀ (xs : List Json) (fuel : Nat) (rest : List Char),
    jvalidList xs = true → jsizeList xs + 1 ≤ fuel → xs ≠ [] →
    parseElems fuel (renderList xs ++ ']' :: rest) = .ok (xs, rest)
  | [], _, _ => by intro _ _ hne; exact absurd rfl hne
  | x :: xs, fuel, rest => by
      intro hv hs _
      have hv2 : jvalid x = true ∧ jvalidList xs = true := by
        simpa [jvalidList] using hv
      simp only [jsizeList] at hs
      have hpx := jsize_pos x
      obtain ⟨f, rfl⟩ : ∃ f, fuel = f + 1 := ⟨fuel - 1, by omega⟩
      rw [parseElems]
      cases xs with
      | nil =>
          have hone : renderList [x] = renderJson x := rfl
          rw [hone,
              parseJ_render x f (']' :: rest) hv2.1 (by simp [jsizeList] at hs; omega) rfl]
          dsimp only []
          rw [skipWs_cons _ _ (by decide)]
          dsimp only []
          rw [if_neg (by decide), if_pos rfl]
      | cons y ys =>
          have hsplit : renderList (x :: y :: ys) ++ ']' :: rest =
              renderJson x ++ (',' :: (renderList (y :: ys) ++ ']' :: rest)) := by
            rw [renderList.eq_3]
            · simp
            · exact fun h => List.noConfusion h
          rw [hsplit,
              parseJ_render x f (',' :: (renderList (y :: ys) ++ ']' :: rest)) hv2.1
                (by omega) rfl]
          dsimp only []
          rw [skipWs_cons _ _ (by decide)]
          dsimp only []
          rw [if_pos rfl,
              parseElems_render (y :: ys) f rest hv2.2 (by omega) (List.cons_ne_nil _ _)]

theorem parseFields_render : ∀ (fs : List (String × Json)) (fuel : Nat) (rest : List Char),
    jvalidFields fs = true → jsizeFields fs + 1 ≤ fuel → fs ≠ [] →
    parseFields fuel (renderFields fs ++ '}' :: rest) = .ok (fs, rest)
  | [], _, _ => by intro _ _ hne; exact absurd rfl hne
  | (k, v) :: fs, fuel, rest => by
      intro hv hs _
      have hv2 : k.data.all safeChar = true ∧ jvalid v = true ∧ jvalidFields fs = true := by
        simpa [jvalidFields, and_assoc] using hv
      simp only [jsizeFields] at hs
      have hpv := jsize_pos v
      obtain ⟨f, rfl⟩ : ∃ f, fuel = f + 1 := ⟨fuel - 1, by omega⟩
      rw [parseFields]
      cases fs with
      | nil =>
          have hsplit : renderFields [(k, v)] ++ '}' :: rest =
              '"' :: (k.data ++ '"' :: (':' :: (renderJson v ++ '}' :: rest))) := by
            rw [renderFields, renderStr_safe k hv2.1]
            simp
          rw [hsplit, skipWs_cons _ _ (by decide)]
          dsimp only []
          rw [if_pos rfl, parseStringBody_safe _ _ hv2.1]
          dsimp only []
          rw [skipWs_cons _ _ (by decide)]
          dsimp only []
          rw [if_pos rfl,
              parseJ_render v f ('}' :: rest) hv2.2.1 (by simp [jsizeFields] at hs; omega) rfl]
          dsimp only []
          rw [skipWs_cons _ _ (by decide)]
          dsimp only []
          rw [if_neg (by decide), if_pos rfl]
      | cons p ps =>
          have hsplit : renderFields ((k, v) :: p :: ps) ++ '}' :: rest =
              '"' :: (k.data ++ '"' :: (':' :: (renderJson v ++
                ',' :: (renderFields (p :: ps) ++ '}' :: rest)))) := by
            rw [renderFields.eq_3, renderStr_safe k hv2.1]
            · simp
            · exact fun h => List.noConfusion h
          rw [hsplit, skipWs_cons _ _ (by decide)]
          dsimp only []
          rw [if_pos rfl, parseStringBody_safe _ _ hv2.1]
          dsimp only []
          rw [skipWs_cons _ _ (by decide)]
          dsimp only []
          rw [if_pos rfl,
              parseJ_render v f (',' :: (renderFields (p :: ps) ++ '}' :: rest)) hv2.2.1
                (by omega) rfl]
          dsimp only []
          rw [skipWs_cons _ _ (by decide)]
          dsimp only []
          rw [if_pos rfl,
              parseFields_render (p :: ps) f rest hv2.2.2 (by omega) (List.cons_ne_nil _ _)]

end


mutual

theorem jsize_le_render : ∀ j : Json, jsize j ≤ (renderJson j).length + 1
  | .null => by simp [jsize, renderJson]
  | .bool true => by simp [jsize, renderJson]
  | .bool false => by simp [jsize, renderJson]
  | .num q => by simp only [jsize]; omega
  | .str s => by simp only [jsize]; omega
  | .arr xs => by
      have h := jsizeList_le_render xs
      simp only [jsize, renderJson, List.length_cons, List.length_append]
      simp
      omega
  | .obj fs => by
      have h := jsizeFields_le_render fs
      simp only [jsize, renderJson, List.length_cons, List.length_append]
      simp
      omega

theorem jsizeList_le_render : ∀ xs : List Json, jsizeList xs ≤ (renderList xs).length + 1
  | [] => by simp [jsizeList, renderList]
  | [x] => by
      have h := jsize_le_render x
      simp only [jsizeList, renderList]
      omega
  | x :: y :: ys => by
      have h1 := jsize_le_render x
      have h2 := jsizeList_le_render (y :: ys)
      rw [jsizeList, renderList.eq_3]
      · simp only [List.length_append, List.length_cons]
        omega
      · exact fun h => List.noConfusion h

theorem jsizeFields_le_render :
    ∀ fs : List (String × Json), jsizeFields fs ≤ (renderFields fs).length + 1
  | [] => by simp [jsizeFields, renderFields]
  | [(k, v)] => by
      have h := jsize_le_render v
      simp only [jsizeFields, renderFields, List.length_append, List.length_cons]
      omega
  | (k, v) :: p :: ps => by
      have h1 := jsize_le_render v
      have h2 := jsizeFields_le_render (p :: ps)
      rw [jsizeFields, renderFields.eq_3]
      · simp only [List.length_append, List.length_cons]
        omega
      · exact fun h => List.noConfusion h

end

theorem jsonUnmarshal_render (j : Json) (hv : jvalid j = true) :
    jsonUnmarshal (renderJson j) = .ok j := by
  have h := parseJ_render j ((renderJson j).length + 1) [] hv
    (le_trans (jsize_le_render j) (by omega)) rfl
  rw [List.append_nil] at h
  rw [jsonUnmarshal, h]
  rfl
theorem decode_encode_option (o : PaymentOption) (hv : optionValid o = true) :
    decodePaymentOptionInto default (encodePaymentOption o) = .ok o := by
  obtain ⟨s1, s2, s3, s4, s5, m, ex⟩ := o
  simp only [optionValid, Bool.and_eq_true] at hv
  obtain ⟨⟨⟨⟨⟨-, -⟩, -⟩, -⟩, -⟩, hF⟩ := hv
  cases ex with
  | none => rfl
  | some fs =>
      cases fs with
      | nil => exact absurd hF (by decide)
      | cons p ps =>
          simp only [goMapValid, Bool.and_eq_true, decide_eq_true_eq] at hF
          have hstep : decodePaymentOptionInto default
              (encodePaymentOption ⟨s1, s2, s3, s4, s5, m, some (p :: ps)⟩) =
              .ok ⟨s1, s2, s3, s4, s5, m, some (goMapOfFields (p :: ps))⟩ := rfl
          rw [hstep, goMapOfFields, hF.1]

theorem mapM_decode_encode_options (xs : List PaymentOption)
    (hv : xs.all optionValid = true) :
    (xs.map encodePaymentOption).mapM (decodePaymentOptionInto default) = .ok xs := by
  induction xs with
  | nil => rfl
  | cons x xs ih =>
      simp only [List.all_cons, Bool.and_eq_true] at hv
      rw [List.map_cons, List.mapM_cons, decode_encode_option x hv.1, ih hv.2]
      rfl


theorem decode_encode_resource (cur : ResourceInfo) (res : ResourceInfo) :
    decodeResourceInfoInto cur (encodeResourceInfo res) = .ok res := rfl

theorem decode_encode_requirement (r : PaymentRequirement) (hv : reqValid r = true) :
    decodePaymentRequirementInto default (encodePaymentRequirement r) = .ok r := by
  obtain ⟨ver, accepts, res, ext⟩ := r
  simp only [reqValid, Bool.and_eq_true] at hv
  obtain ⟨⟨hacc, -⟩, hext⟩ := hv
  have haccs : goAssignOptions (.arr (accepts.map encodePaymentOption)) = .ok accepts := by
    simp only [goAssignOptions]
    exact mapM_decode_encode_options accepts hacc
  cases ext with
  | none =>
      have h0 : decodePaymentRequirementInto default
          (encodePaymentRequirement ⟨ver, accepts, res, none⟩) =
          Except.bind ((goAssignOptions (.arr (accepts.map encodePaymentOption))).map
            (fun xs => (⟨ver, xs, default, none⟩ : PaymentRequirement)))
            (fun R2 => List.foldlM (fun req kv => paymentRequirementSetField req kv.1 kv.2) R2
              [("resource", encodeResourceInfo res)]) := rfl
      rw [h0, haccs]
      rfl
  | some fs =>
      cases fs with
      | nil => exact absurd hext (by decide)
      | cons p ps =>
          simp only [goMapValid, Bool.and_eq_true, decide_eq_true_eq] at hext
          have h0 : decodePaymentRequirementInto default
              (encodePaymentRequirement ⟨ver, accepts, res, some (p :: ps)⟩) =
              Except.bind ((goAssignOptions (.arr (accepts.map encodePaymentOption))).map
                (fun xs => (⟨ver, xs, default, none⟩ : PaymentRequirement)))
                (fun R2 => List.foldlM
                  (fun req kv => paymentRequirementSetField req kv.1 kv.2) R2
                  [("resource", encodeResourceInfo res),
                   ("extensions", .obj (p :: ps))]) := rfl
          rw [h0, haccs]
          show (Except.ok (⟨ver, accepts, res, some (goMapOfFields (p :: ps))⟩ :
              PaymentRequirement) : Except String PaymentRequirement) =
            .ok ⟨ver, accepts, res, some (p :: ps)⟩
          rw [goMapOfFields, hext.1]

theorem safeChar_lt256 (c : Char) (h : safeChar c = true) : c.toNat < 256 := by
  simp only [safeChar, Bool.and_eq_true, decide_eq_true_eq] at h
  omega

theorem natToChars_lt256 (n : Nat) (c : Char) (hc : c ∈ natToChars n) : c.toNat < 256 := by
  have hall := natToCharsAux_all (n + 1) n (by omega)
  rw [natToChars] at hc
  have hd : isDigitChar c = true := List.all_eq_true.mp hall c hc
  simp only [isDigitChar, Bool.and_eq_true, decide_eq_true_eq] at hd
  omega

theorem renderStr_lt256 (k : String) (h : k.data.all safeChar = true) (c : Char)
    (hc : c ∈ renderStrChars k) : c.toNat < 256 := by
  rw [renderStr_safe k h] at hc
  rcases List.mem_cons.mp hc with rfl | hc2
  · decide
  · rcases List.mem_append.mp hc2 with hc3 | hc4
    · exact safeChar_lt256 c (List.all_eq_true.mp h c hc3)
    · rcases List.mem_cons.mp hc4 with rfl | hc5
      · decide
      · simp at hc5

mutual

theorem render_ascii : ∀ j : Json, jvalid j = true → ∀ c ∈ renderJson j, c.toNat < 256
  | .null => by
      intro _ c hc
      simp only [renderJson, nullChars, List.mem_cons, List.not_mem_nil, or_false] at hc
      rcases hc with rfl | rfl | rfl | rfl <;> decide
  | .bool true => by
      intro _ c hc
      simp only [renderJson, trueChars, List.mem_cons, List.not_mem_nil, or_false] at hc
      rcases hc with rfl | rfl | rfl | rfl <;> decide
  | .bool false => by
      intro _ c hc
      simp only [renderJson, falseChars, List.mem_cons, List.not_mem_nil, or_false] at hc
      rcases hc with rfl | rfl | rfl | rfl | rfl <;> decide
  | .num q => by
      intro hv c hc
      have hden : q.den = 1 := by simpa [jvalid] using hv
      have hr : renderJson (.num q) = intToChars q.num := by
        show ratToChars q = _
        rw [ratToChars, if_pos hden]
      rw [hr, intToChars] at hc
      by_cases hneg : q.num < 0
      · rw [if_pos hneg] at hc
        rcases List.mem_cons.mp hc with rfl | hc2
        · decide
        · exact natToChars_lt256 _ c hc2
      · rw [if_neg hneg] at hc
        exact natToChars_lt256 _ c hc
  | .str s => by
      intro hv c hc
      have hsafe : s.data.all safeChar = true := by simpa [jvalid] using hv
      have hr : renderJson (.str s) = '"' :: (s.data ++ ['"']) := by
        show renderStrChars s = _
        rw [renderStr_safe s hsafe]
      rw [hr] at hc
      simp only [List.mem_cons, List.mem_append, List.not_mem_nil, or_false] at hc
      rcases hc with rfl | hc2 | rfl
      · decide
      · exact safeChar_lt256 c (List.all_eq_true.mp hsafe c hc2)
      · decide
  | .arr xs => by
      intro hv c hc
      have hv2 : jvalidList xs = true := by simpa [jvalid] using hv
      simp only [renderJson, List.mem_cons, List.mem_append, List.not_mem_nil, or_false] at hc
      rcases hc with rfl | hc2 | rfl
      · decide
      · exact render_ascii_list xs hv2 c hc2
      · decide
  | .obj fs => by
      intro hv c hc
      have hv2 : jvalidFields fs = true := by simpa [jvalid] using hv
      simp only [renderJson, List.mem_cons, List.mem_append, List.not_mem_nil, or_false] at hc
      rcases hc with rfl | hc2 | rfl
      · decide
      · exact render_ascii_fields fs hv2 c hc2
      · decide

theorem render_ascii_list : ∀ xs : List Json, jvalidList xs = true →
    ∀ c ∈ renderList xs, c.toNat < 256
  | [] => by intro _ c hc; simp [renderList] at hc
  | [x] => by
      intro hv c hc
      have hv2 : jvalid x = true := by simpa [jvalidList] using hv
      rw [renderList] at hc
      exact render_ascii x hv2 c hc
  | x :: y :: ys => by
      intro hv c hc
      have hv2 : jvalid x = true ∧ jvalidList (y :: ys) = true := by
        simpa [jvalidList, and_assoc] using hv
      rw [renderList.eq_3] at hc
      · simp only [List.mem_append, List.mem_cons] at hc
        rcases hc with hc1 | rfl | hc2
        · exact render_ascii x hv2.1 c hc1
        · decide
        · exact render_ascii_list (y :: ys) hv2.2 c hc2
      · exact fun h => List.noConfusion h

theorem render_ascii_fields : ∀ fs : List (String × Json), jvalidFields fs = true →
    ∀ c ∈ renderFields fs, c.toNat < 256
  | [] => by intro _ c hc; simp [renderFields] at hc
  | [(k, v)] => by
      intro hv c hc
      have hv2 : k.data.all safeChar = true ∧ jvalid v = true := by
        simpa [jvalidFields, and_assoc] using hv
      rw [renderFields] at hc
      rcases List.mem_append.mp hc with h | h
      · exact renderStr_lt256 k hv2.1 c h
      · rcases List.mem_cons.mp h with rfl | h2
        · decide
        · exact render_ascii v hv2.2 c h2
  | (k, v) :: p :: ps => by
      intro hv c hc
      have hv2 : k.data.all safeChar = true ∧ jvalid v = true ∧
          jvalidFields (p :: ps) = true := by
        simpa [jvalidFields, and_assoc] using hv
      rw [renderFields.eq_3] at hc
      · rcases List.mem_append.mp hc with h | h
        · rcases List.mem_append.mp h with h1 | h1
          · exact renderStr_lt256 k hv2.1 c h1
          · rcases List.mem_cons.mp h1 with rfl | h2
            · decide
            · exact render_ascii v hv2.2.1 c h2
        · rcases List.mem_cons.mp h with rfl | h2
          · decide
          · exact render_ascii_fields (p :: ps) hv2.2.2 c h2
      · exact fun h => List.noConfusion h

end


theorem encode_option_valid (o : PaymentOption) (hv : optionValid o = true) :
    jvalid (encodePaymentOption o) = true := by
  obtain ⟨s1, s2, s3, s4, s5, m, ex⟩ := o
  simp only [optionValid, Bool.and_eq_true] at hv
  obtain ⟨⟨⟨⟨⟨h1, h2⟩, h3⟩, h4⟩, h5⟩, hF⟩ := hv
  have h1b : s1.data.all safeChar = true := h1
  have h2b : s2.data.all safeChar = true := h2
  have h3b : s3.data.all safeChar = true := h3
  have h4b : s4.data.all safeChar = true := h4
  have h5b : s5.data.all safeChar = true := h5
  cases ex with
  | none =>
      simp only [encodePaymentOption, encodeGoMapOpt, List.append_nil, jvalid, jvalidFields,
        Bool.and_eq_true, Rat.den_intCast, beq_self_eq_true]
      repeat' constructor
      all_goals first | exact h1b | exact h2b | exact h3b | exact h4b | exact h5b | decide
  | some fs =>
      cases fs with
      | nil => exact absurd hF (by decide)
      | cons p ps =>
          obtain ⟨pk, pv⟩ := p
          simp only [goMapValid, Bool.and_eq_true, decide_eq_true_eq] at hF
          have hFF : (pk.data.all safeChar = true ∧ jvalid pv = true) ∧
              jvalidFields ps = true := by
            simpa [jvalidFields, Bool.and_eq_true] using hF.2
          simp only [encodePaymentOption, encodeGoMapOpt, List.append_nil, jvalid,
            jvalidFields, Bool.and_eq_true, Rat.den_intCast, beq_self_eq_true]
          repeat' constructor
          all_goals
            first
              | exact h1b
              | exact h2b
              | exact h3b
              | exact h4b
              | exact h5b
              | exact hFF.1.1
              | exact hFF.1.2
              | exact hFF.2
              | decide

theorem encode_resource_valid (res : ResourceInfo) (hv : resourceValid res = true) :
    jvalid (encodeResourceInfo res) = true := by
  obtain ⟨u, d, mt⟩ := res
  simp only [resourceValid, Bool.and_eq_true] at hv
  obtain ⟨⟨hu, hd⟩, hmt⟩ := hv
  have hub : u.data.all safeChar = true := hu
  have hdb : d.data.all safeChar = true := hd
  have hmtb : mt.data.all safeChar = true := hmt
  simp only [encodeResourceInfo, jvalid, jvalidFields, Bool.and_eq_true]
  repeat' constructor
  all_goals first | exact hub | exact hdb | exact hmtb | decide

theorem encode_options_valid_list (xs : List PaymentOption) (hv : xs.all optionValid = true) :
    jvalidList (xs.map encodePaymentOption) = true := by
  induction xs with
  | nil => rfl
  | cons x xs ih =>
      simp only [List.all_cons, Bool.and_eq_true] at hv
      simp only [List.map_cons, jvalidList, Bool.and_eq_true]
      exact ⟨encode_option_valid x hv.1, ih hv.2⟩

theorem encode_req_valid (r : PaymentRequirement) (hv : reqValid r = true) :
    jvalid (encodePaymentRequirement r) = true := by
  obtain ⟨ver, accepts, res, ext⟩ := r
  simp only [reqValid, Bool.and_eq_true] at hv
  obtain ⟨⟨hacc, hres⟩, hext⟩ := hv
  have haccl : jvalidList (accepts.map encodePaymentOption) = true :=
    encode_options_valid_list accepts hacc
  have hresv : jvalid (encodeResourceInfo res) = true := encode_resource_valid res hres
  cases ext with
  | none =>
      simp only [encodePaymentRequirement, encodeGoMapOpt, List.append_nil, jvalid,
        jvalidFields, Bool.and_eq_true, Rat.den_intCast, beq_self_eq_true]
      repeat' constructor
      all_goals first | exact haccl | exact hresv | decide
  | some fs =>
      cases fs with
      | nil => exact absurd hext (by decide)
      | cons p ps =>
          obtain ⟨pk, pv⟩ := p
          simp only [goMapValid, Bool.and_eq_true, decide_eq_true_eq] at hext
          have hFF : (pk.data.all safeChar = true ∧ jvalid pv = true) ∧
              jvalidFields ps = true := by
            simpa [jvalidFields, Bool.and_eq_true] using hext.2
          simp only [encodePaymentRequirement, encodeGoMapOpt, List.append_nil, jvalid,
            jvalidFields, Bool.and_eq_true, Rat.den_intCast, beq_self_eq_true]
          repeat' constructor
          all_goals
            first
              | exact haccl
              | exact hresv
              | exact hFF.1.1
              | exact hFF.1.2
              | exact hFF.2
              | decide

set_option maxRecDepth 400000

/-! Claim theorems. -/

/-- C5 (amended): the `accepted` field echoes the chosen option's network,
amount, payee and timeout, while its scheme is always the literal `"exact"`,
its asset always the Base USDC contract address, and its extra map is
replaced by the resolved token name/version (defaults `"USD Coin"`/`"2"`). -/
theorem C5_accepted_echo (env : CryptoEnv) (opt : PaymentOption) (u d : String)
    (exts : Option GoMap) (p : PaymentPayload)
    (h : createPaymentPayloadStruct env opt.payTo opt.amount opt.network u d
        opt.maxTimeoutSeconds opt.extra exts = .ok p) :
    p.accepted.network = opt.network ∧ p.accepted.amount = opt.amount ∧
    p.accepted.payTo = opt.payTo ∧ p.accepted.maxTimeoutSeconds = opt.maxTimeoutSeconds ∧
    p.accepted.scheme = "exact" ∧ p.accepted.asset = USDCBase ∧
    p.accepted.extra = some
      [("name", .str (match goLookupString opt.extra "name" with
          | some s => s
          | none => "USD Coin")),
       ("version", .str (match goLookupString opt.extra "version" with
          | some s => s
          | none => "2"))] := by
  obtain ⟨nb, dh, mh, sg, amt, -, -, -, -, -, hp⟩ := createPaymentPayloadStruct_ok_elim h
  subst hp
  exact ⟨rfl, rfl, rfl, rfl, rfl, rfl, rfl⟩

/-- C5 counterexample: for a chosen option whose scheme and asset differ from
the hardcoded values, the built payload does not echo them. -/
theorem C5_counterexample :
    createPaymentPayloadStruct envW optX.payTo optX.amount optX.network "u" "d"
        optX.maxTimeoutSeconds optX.extra none = .ok payloadX ∧
    payloadX.accepted.scheme ≠ optX.scheme ∧ payloadX.accepted.asset ≠ optX.asset :=
  ⟨by decide, by decide, by decide⟩

theorem C5_accepted_echo_witness :
    createPaymentPayloadStruct envW optW.payTo optW.amount optW.network
      "https://blockrun.ai/api/v1/chat/completions" "Test resource"
      optW.maxTimeoutSeconds optW.extra none = .ok payloadW ∧
    (payloadW.accepted.network = optW.network ∧ payloadW.accepted.amount = optW.amount ∧
     payloadW.accepted.payTo = optW.payTo ∧
     payloadW.accepted.maxTimeoutSeconds = optW.maxTimeoutSeconds ∧
     payloadW.accepted.scheme = "exact" ∧ payloadW.accepted.asset = USDCBase ∧
     payloadW.accepted.extra = some
       [("name", .str (match goLookupString optW.extra "name" with
           | some s => s
           | none => "USD Coin")),
        ("version", .str (match goLookupString optW.extra "version" with
           | some s => s
           | none => "2"))]) :=
  ⟨by decide, C5_accepted_echo envW optW "https://blockrun.ai/api/v1/chat/completions"
      "Test resource" none payloadW (by decide)⟩

/-- C7 (amended): the builder fails whenever the amount string is not a
valid base-10 integer, and every amount it accepts and signs parses as a
base-10 integer - possibly negative. -/
theorem C7_amount_parse (env : CryptoEnv) (r a n u d : String) (mts : Int)
    (ex exts : Option GoMap) :
    (bigIntSetString10 a = none →
      ∃ e, createPaymentPayloadStruct env r a n u d mts ex exts = .error e) ∧
    (∀ p, createPaymentPayloadStruct env r a n u d mts ex exts = .ok p →
      ∃ v, bigIntSetString10 a = some v ∧ p.payload.authorization.value = a) := by
  constructor
  · exact createPaymentPayloadStruct_invalid_amount
  · intro p h
    obtain ⟨nb, dh, mh, sg, amt, -, ha, -, -, -, hp⟩ := createPaymentPayloadStruct_ok_elim h
    subst hp
    exact ⟨amt, ha, rfl⟩

/-- C7 counterexample: the amount `"-1"` is accepted and signed although it
parses as a negative integer. -/
theorem C7_counterexample :
    createPaymentPayloadStruct envW "0xR" "-1" "eip155:8453" "u" "d" 30 none none =
      .ok payloadNeg ∧
    bigIntSetString10 "-1" = some (-1) ∧ ¬ (0 : Int) ≤ -1 :=
  ⟨by decide, by decide, by decide⟩

theorem C7_amount_parse_witness :
    bigIntSetString10 "12a" = none ∧
    (∃ e, createPaymentPayloadStruct envW "0xR" "12a" "eip155:8453" "u" "d" 30 none none =
      .error e) ∧
    createPaymentPayloadStruct envW optW.payTo optW.amount optW.network
      "https://blockrun.ai/api/v1/chat/completions" "Test resource"
      optW.maxTimeoutSeconds optW.extra none = .ok payloadW ∧
    (∃ v, bigIntSetString10 optW.amount = some v ∧
      payloadW.payload.authorization.value = optW.amount) :=
  ⟨by decide,
   (C7_amount_parse envW "0xR" "12a" "eip155:8453" "u" "d" 30 none none).1 (by decide),
   by decide,
   (C7_amount_parse envW optW.payTo optW.amount optW.network
      "https://blockrun.ai/api/v1/chat/completions" "Test resource"
      optW.maxTimeoutSeconds optW.extra none).2 payloadW (by decide)⟩

/-- C10: `ExtractPaymentDetails` hands the requirement back untouched - the
legacy amount fallback writes only the returned copy of the first option -
and the state-passing embedding computes the same result as the plain one. -/
theorem C10_no_mutation (req : PaymentRequirement) :
    (extractPaymentDetailsSt req).2 = req ∧
    (extractPaymentDetailsSt req).1 = ExtractPaymentDetails req := by
  unfold extractPaymentDetailsSt ExtractPaymentDetails
  rcases ha : req.accepts with _ | ⟨o, rest⟩
  · exact ⟨rfl, rfl⟩
  dsimp only []
  by_cases h1 : o.amount = ""
  · rcases hlk : goLookupString o.extra "maxAmountRequired" with _ | s
    · simp [h1, hlk]
    · by_cases h2 : s = "" <;> simp [h1, hlk, h2]
  · simp [h1]

/-- C9: `ChatCompletion` with an empty model or an empty message list returns
the corresponding `ValidationError` with the session state unchanged and an
empty request trace - the transport is never invoked, and nothing is
retried. -/
theorem C9_validation (env : CryptoEnv) (st : ClientState) (apiURL : String)
    (transport : List HttpResponse) (model : String) (messages : List ChatMessage)
    (opts : Option ChatCompletionOptions) :
    (model = "" → ChatCompletion env st apiURL transport model messages opts =
      ⟨.error (.validationError "model" "Model is required"), st, []⟩) ∧
    (model ≠ "" → messages = [] → ChatCompletion env st apiURL transport model messages opts =
      ⟨.error (.validationError "messages" "At least one message is required"), st, []⟩) := by
  constructor
  · intro h
    unfold ChatCompletion
    rw [if_pos h]
  · intro h hm
    unfold ChatCompletion
    rw [if_neg h, if_pos hm]

theorem C9_validation_witness :
    (ChatCompletion envW ⟨0, 0⟩ "https://blockrun.ai/api" [] "" [⟨"user", "hi"⟩] none =
      ⟨.error (.validationError "model" "Model is required"), ⟨0, 0⟩, []⟩) ∧
    (ChatCompletion envW ⟨0, 0⟩ "https://blockrun.ai/api" [] "m" [] none =
      ⟨.error (.validationError "messages" "At least one message is required"), ⟨0, 0⟩, []⟩) :=
  ⟨(C9_validation envW ⟨0, 0⟩ "https://blockrun.ai/api" [] "" [⟨"user", "hi"⟩] none).1 rfl,
   (C9_validation envW ⟨0, 0⟩ "https://blockrun.ai/api" [] "m" [] none).2 (by decide) rfl⟩

theorem requestWithPayment_non402 (env : CryptoEnv) (st : ClientState) (apiURL : String)
    (resp : HttpResponse) (rest : List HttpResponse) (endpoint : String) (body : GoMap)
    (h402 : resp.status ≠ 402) :
    (requestWithPayment env st apiURL (resp :: rest) endpoint body).trace =
      [{ method := "POST", url := apiURL ++ endpoint, contentType := "application/json",
         paymentSignature := none, body := renderJson (.obj body) }] ∧
    (requestWithPayment env st apiURL (resp :: rest) endpoint body).state = st := by
  unfold requestWithPayment
  dsimp only []
  rw [if_neg h402]
  by_cases h200 : resp.status = 200
  · simp only [h200, ne_eq, not_true_eq_false, if_false]
    rcases hd : jsonDecodeValue resp.body >>= decodeChatResponseInto default with e | cr <;>
      simp [hd]
  · simp [h200]

theorem requestWithPayment_402_shape (env : CryptoEnv) (st : ClientState) (apiURL : String)
    (resp : HttpResponse) (rest : List HttpResponse) (endpoint : String) (body : GoMap)
    (h402 : resp.status = 402) :
    requestWithPayment env st apiURL (resp :: rest) endpoint body =
      ⟨(handlePaymentAndRetry env st (apiURL ++ endpoint) (renderJson (.obj body)) resp rest).result,
       (handlePaymentAndRetry env st (apiURL ++ endpoint) (renderJson (.obj body)) resp rest).state,
       { method := "POST", url := apiURL ++ endpoint, contentType := "application/json",
         paymentSignature := none, body := renderJson (.obj body) } ::
         (handlePaymentAndRetry env st (apiURL ++ endpoint) (renderJson (.obj body)) resp rest).trace⟩ := by
  unfold requestWithPayment
  dsimp only []
  rw [if_pos h402]

/-- C2: a logical call issues at most two HTTP requests; when two are
issued, the second has a byte-identical body, the same URL and method,
differing only in the added `PAYMENT-SIGNATURE` header; and when the retried
request answers 402 again the call ends in the fixed `PaymentError` with no
third request. -/
theorem C2_single_retry (env : CryptoEnv) (st : ClientState) (apiURL : String)
    (transport : List HttpResponse) (endpoint : String) (body : GoMap) :
    (requestWithPayment env st apiURL transport endpoint body).trace.length ≤ 2 ∧
    (∀ r₁ r₂, (requestWithPayment env st apiURL transport endpoint body).trace = [r₁, r₂] →
      r₂.body = r₁.body ∧ r₂.url = r₁.url ∧ r₂.method = r₁.method ∧
      r₁.paymentSignature = none ∧ r₂.paymentSignature.isSome = true) ∧
    (∀ resp₁ resp₂ rest, transport = resp₁ :: resp₂ :: rest → resp₂.status = 402 →
      (requestWithPayment env st apiURL transport endpoint body).trace.length = 2 →
      (requestWithPayment env st apiURL transport endpoint body).result =
        .error (.paymentError "Payment was rejected. Check your wallet balance.")) := by
  rcases transport with _ | ⟨resp, rest⟩
  · refine ⟨by simp [requestWithPayment], ?_, ?_⟩
    · intro r₁ r₂ h
      simp [requestWithPayment] at h
    · intro resp₁ resp₂ rest h
      exact absurd h (by simp)
  by_cases h402 : resp.status = 402
  · rw [requestWithPayment_402_shape env st apiURL resp rest endpoint body h402]
    rcases handlePaymentAndRetry_trace_shape env st (apiURL ++ endpoint)
        (renderJson (.obj body)) resp rest with hshape | ⟨sig, hshape⟩
    · refine ⟨by simp [hshape], ?_, ?_⟩
      · intro r₁ r₂ h
        rw [hshape] at h
        simp at h
      · intro resp₁ resp₂ rest₂ ht h4022 hlen
        rw [hshape] at hlen
        simp at hlen
    · refine ⟨by simp [hshape], ?_, ?_⟩
      · intro r₁ r₂ h
        rw [hshape] at h
        simp only [List.cons.injEq, and_true] at h
        obtain ⟨hr₁, hr₂⟩ := h
        subst hr₁
        subst hr₂
        exact ⟨rfl, rfl, rfl, rfl, rfl⟩
      · intro resp₁ resp₂ rest₂ ht h4022 hlen
        injection ht with ht1 ht2
        subst ht1
        subst ht2
        have hne : (handlePaymentAndRetry env st (apiURL ++ endpoint)
            (renderJson (.obj body)) resp (resp₂ :: rest₂)).trace ≠ [] := by
          rw [hshape]; simp
        exact (handlePaymentAndRetry_second402 env st (apiURL ++ endpoint)
            (renderJson (.obj body)) resp h4022 hne).1
  · obtain ⟨htr, -⟩ := requestWithPayment_non402 env st apiURL resp rest endpoint body h402
    refine ⟨by simp [htr], ?_, ?_⟩
    · intro r₁ r₂ h
      rw [htr] at h
      simp at h
    · intro resp₁ resp₂ rest₂ ht h4022 hlen
      rw [htr] at hlen
      simp at hlen

theorem bigIntSetString10_ne_empty {s : String} {v : Int}
    (h : bigIntSetString10 s = some v) : s ≠ "" := by
  intro heq
  subst heq
  have h0 : bigIntSetString10 "" = none := by decide
  rw [h0] at h
  exact Option.noConfusion h

theorem settled_retry_updates_ledger (env : CryptoEnv) (st : ClientState) (apiURL : String)
    (resp₁ resp₂ : HttpResponse) (rest : List HttpResponse) (endpoint : String) (body : GoMap)
    (req₀ : PaymentRequirement) (opt : PaymentOption) (sig : String) (cr : ChatResponse)
    (v : Int)
    (h4021 : resp₁.status = 402)
    (hp : ParsePaymentRequired (resolvePaymentHeader resp₁) = .ok req₀)
    (hx : ExtractPaymentDetails req₀ = .ok opt)
    (hc : CreatePaymentPayload env opt.payTo opt.amount opt.network
        (if req₀.resource.url = "" then apiURL ++ endpoint else req₀.resource.url)
        req₀.resource.description opt.maxTimeoutSeconds opt.extra req₀.extensions = .ok sig)
    (h200 : resp₂.status = 200)
    (hd : (jsonDecodeValue resp₂.body >>= decodeChatResponseInto default) = .ok cr)
    (hv : bigIntSetString10 opt.amount = some v) :
    (requestWithPayment env st apiURL (resp₁ :: resp₂ :: rest) endpoint body).result = .ok cr ∧
    (requestWithPayment env st apiURL (resp₁ :: resp₂ :: rest) endpoint body).state =
      ⟨st.sessionTotalUSD + (v : ℚ) / 1000000, st.sessionCalls + 1⟩ := by
  rw [requestWithPayment_402_shape env st apiURL resp₁ (resp₂ :: rest) endpoint body h4021]
  have hsc : signChallenge env (apiURL ++ endpoint) resp₁ = .ok (sig, opt) :=
    signChallenge_intro hp hx hc
  have hamount : opt.amount ≠ "" := bigIntSetString10_ne_empty hv
  have hscan : scanFloatQ opt.amount = some (v : ℚ) := bigInt_scan_agree hv
  unfold handlePaymentAndRetry
  rw [hsc]
  dsimp only []
  simp only [h200]
  norm_num
  rw [hd]
  dsimp only []
  simp only [hamount, hscan, if_pos]
  refine ⟨?_, ?_⟩ <;> first
    | rfl
    | trivial

/-- C6: one settled paid retry at amount `"1000000"` leaves the spending
snapshot at total 1 USD and one call; a non-402 first response never touches
the ledger; no error outcome ever updates it; and in general a settled paid
retry adds exactly 1 to the call count and `amount / 1,000,000` to the
total. -/
theorem C6_ledger :
    GetSpending ((requestWithPayment envW ⟨0, 0⟩ "https://blockrun.ai/api"
        [challenge402W, ok200W] "/v1/chat/completions" bodyW).state) = ⟨1, 1⟩ ∧
    (∀ env st apiURL resp rest endpoint body, resp.status ≠ 402 →
      (requestWithPayment env st apiURL (resp :: rest) endpoint body).state = st) ∧
    (∀ env st apiURL transport endpoint body e,
      (requestWithPayment env st apiURL transport endpoint body).result = .error e →
      (requestWithPayment env st apiURL transport endpoint body).state = st) ∧
    (∀ env st apiURL resp₁ resp₂ rest endpoint body req₀ opt sig cr v,
      resp₁.status = 402 →
      ParsePaymentRequired (resolvePaymentHeader resp₁) = .ok req₀ →
      ExtractPaymentDetails req₀ = .ok opt →
      CreatePaymentPayload env opt.payTo opt.amount opt.network
        (if req₀.resource.url = "" then apiURL ++ endpoint else req₀.resource.url)
        req₀.resource.description opt.maxTimeoutSeconds opt.extra req₀.extensions = .ok sig →
      resp₂.status = 200 →
      (jsonDecodeValue resp₂.body >>= decodeChatResponseInto default) = .ok cr →
      bigIntSetString10 opt.amount = some v →
      (requestWithPayment env st apiURL (resp₁ :: resp₂ :: rest) endpoint body).result = .ok cr ∧
      (requestWithPayment env st apiURL (resp₁ :: resp₂ :: rest) endpoint body).state =
        ⟨st.sessionTotalUSD + (v : ℚ) / 1000000, st.sessionCalls + 1⟩) := by
  refine ⟨?_, ?_, ?_, ?_⟩
  · have h := settled_retry_updates_ledger envW ⟨0, 0⟩ "https://blockrun.ai/api"
      challenge402W ok200W [] "/v1/chat/completions" bodyW reqW optW sigW chatRespW 1000000
      (by decide) (by decide) (by decide) (by decide) (by decide) (by decide) (by decide)
    rw [h.2]
    unfold GetSpending
    dsimp only []
    norm_num
  · intro env st apiURL resp rest endpoint body h402
    exact (requestWithPayment_non402 env st apiURL resp rest endpoint body h402).2
  · intro env st apiURL transport endpoint body e he
    rcases transport with _ | ⟨resp, rest⟩
    · rfl
    by_cases h402 : resp.status = 402
    · rw [requestWithPayment_402_shape env st apiURL resp rest endpoint body h402] at he ⊢
      exact handlePaymentAndRetry_error_state env st (apiURL ++ endpoint)
        (renderJson (.obj body)) resp rest e he
    · exact (requestWithPayment_non402 env st apiURL resp rest endpoint body h402).2
  · intro env st apiURL resp₁ resp₂ rest endpoint body req₀ opt sig cr v h4021 hp hx hc h200 hd hv
    exact settled_retry_updates_ledger env st apiURL resp₁ resp₂ rest endpoint body
      req₀ opt sig cr v h4021 hp hx hc h200 hd hv

/-- C3: an empty `Accepts` sequence is a (non-panicking) error; otherwise
the first option is returned, the amount preferring the option field and
falling back to `extra["maxAmountRequired"]`, with an error when both are
empty or missing; an option is never returned with an empty amount. -/
theorem C3_challenge_options (req : PaymentRequirement) :
    (req.accepts = [] →
      ExtractPaymentDetails req = .error "no payment options in payment required response") ∧
    (∀ o rest, req.accepts = o :: rest →
      (o.amount ≠ "" → ExtractPaymentDetails req = .ok o) ∧
      (o.amount = "" → ∀ s, goLookupString o.extra "maxAmountRequired" = some s → s ≠ "" →
          ExtractPaymentDetails req = .ok { o with amount := s }) ∧
      (o.amount = "" →
          goLookupString o.extra "maxAmountRequired" = none ∨
            goLookupString o.extra "maxAmountRequired" = some "" →
          ExtractPaymentDetails req = .error "no amount found in payment requirements")) ∧
    (∀ o', ExtractPaymentDetails req = .ok o' → o'.amount ≠ "") := by
  refine ⟨?_, ?_, ?_⟩
  · intro h
    unfold ExtractPaymentDetails
    rw [h]
  · intro o rest h
    unfold ExtractPaymentDetails
    rw [h]
    dsimp only []
    refine ⟨?_, ?_, ?_⟩
    · intro hne
      simp [hne]
    · intro hemp s hs hsne
      simp [hemp, hs, hsne]
    · intro hemp hlk
      rcases hlk with hlk | hlk <;> simp [hemp, hlk]
  · intro o' h
    unfold ExtractPaymentDetails at h
    rcases ha : req.accepts with _ | ⟨o, rest⟩
    · rw [ha] at h
      exact absurd h (by simp)
    rw [ha] at h
    dsimp only [] at h
    by_cases h1 : o.amount = ""
    · rw [if_pos h1] at h
      rcases hlk : goLookupString o.extra "maxAmountRequired" with _ | s
      · rw [hlk] at h
        dsimp only [] at h
        rw [if_pos h1] at h
        exact absurd h (by simp)
      · rw [hlk] at h
        dsimp only [] at h
        by_cases h2 : s = ""
        · rw [if_pos h2] at h
          exact absurd h (by simp)
        · rw [if_neg h2] at h
          injection h with h
          rw [← h]
          exact h2
    · rw [if_neg h1] at h
      rw [if_neg h1] at h
      injection h with h
      rw [← h]
      exact h1

theorem C3_challenge_options_witness :
    ExtractPaymentDetails { reqW with accepts := [] } =
      .error "no payment options in payment required response" ∧
    ExtractPaymentDetails reqW = .ok optW ∧
    ExtractPaymentDetails { reqW with accepts :=
        [{ optW with amount := "", extra := some [("maxAmountRequired", .str "42")] }] } =
      .ok { optW with amount := "42", extra := some [("maxAmountRequired", .str "42")] } ∧
    ExtractPaymentDetails { reqW with accepts := [{ optW with amount := "" }] } =
      .error "no amount found in payment requirements" := by
  refine ⟨(C3_challenge_options { reqW with accepts := [] }).1 rfl, ?_, ?_, ?_⟩
  · exact ((C3_challenge_options reqW).2.1 optW [] rfl).1 (by decide)
  · exact ((C3_challenge_options _).2.1
      { optW with amount := "", extra := some [("maxAmountRequired", .str "42")] } [] rfl).2.1
      (by decide) "42" (by decide) (by decide)
  · exact ((C3_challenge_options _).2.1 { optW with amount := "" } [] rfl).2.2
      (by decide) (.inl (by decide))

theorem C2_single_retry_witness :
    challenge402W.status = 402 ∧
    (requestWithPayment envW ⟨0, 0⟩ "https://blockrun.ai/api" [challenge402W, challenge402W]
        "/v1/chat/completions" bodyW).trace.length = 2 ∧
    (requestWithPayment envW ⟨0, 0⟩ "https://blockrun.ai/api" [challenge402W, challenge402W]
        "/v1/chat/completions" bodyW).result =
      .error (.paymentError "Payment was rejected. Check your wallet balance.") := by
  refine ⟨by decide, by decide, (C2_single_retry envW ⟨0, 0⟩ "https://blockrun.ai/api"
      [challenge402W, challenge402W] "/v1/chat/completions" bodyW).2.2 challenge402W
      challenge402W [] rfl (by decide) (by decide)⟩

theorem C6_ledger_witness :
    (requestWithPayment envW ⟨0, 0⟩ "https://blockrun.ai/api" [challenge402W, ok200W]
        "/v1/chat/completions" bodyW).result = .ok chatRespW ∧
    (requestWithPayment envW ⟨0, 0⟩ "https://blockrun.ai/api" [challenge402W, ok200W]
        "/v1/chat/completions" bodyW).state =
      ⟨(0 : ℚ) + ((1000000 : Int) : ℚ) / 1000000, (0 : Int) + 1⟩ := by
  exact C6_ledger.2.2.2 envW ⟨0, 0⟩ "https://blockrun.ai/api" challenge402W ok200W []
    "/v1/chat/completions" bodyW reqW optW sigW chatRespW 1000000 (by decide) (by decide)
    (by decide) (by decide) (by decide) (by decide) (by decide)

/-- C4: the body-fallback input - a 402 with no header whose JSON body
carries the `x402` marker and a well-formed challenge - is recovered and fed
to `ParsePaymentRequired`, but the re-serialized body is raw JSON, which the
base64 decoder rejects, so the call fails with a `PaymentError` after a
single request instead of proceeding to signing and retry. -/
theorem C4_body_fallback_dead :
    resolvePaymentHeader respBodyOnlyW ≠ "" ∧
    (jsonDecodeValue respBodyOnlyW.body >>= decodePaymentRequirementInto default) =
      .ok reqBodyW ∧
    ExtractPaymentDetails reqBodyW = .ok optW ∧
    (requestWithPayment envW ⟨0, 0⟩ "https://blockrun.ai/api" [respBodyOnlyW]
        "/v1/chat/completions" bodyW).result =
      .error (.paymentError
        "Failed to parse payment requirements: failed to decode payment required header: illegal base64 data") ∧
    (requestWithPayment envW ⟨0, 0⟩ "https://blockrun.ai/api" [respBodyOnlyW]
        "/v1/chat/completions" bodyW).trace.length = 1 := by
  refine ⟨by decide, by decide, by decide, by decide, by decide⟩

/-- C8: for every valid `PaymentRequirement` (printable-ASCII strings without
characters needing escapes, integer-valued numbers, optional maps either
absent or non-empty and in the canonical key-sorted form a decoded Go map is
stored in), JSON-serializing it and base64-encoding the bytes — the encoding
`CreatePaymentPayload` itself uses — and then decoding the result with
`ParsePaymentRequired` yields the structurally identical requirement: the
round trip is the identity on valid instances. -/
theorem C8_roundtrip (r : PaymentRequirement) (hv : reqValid r = true) :
    ParsePaymentRequired
      ⟨encodeB64 ((renderJson (encodePaymentRequirement r)).map Char.toNat)⟩ = .ok r := by
  have hjv : jvalid (encodePaymentRequirement r) = true := encode_req_valid r hv
  have hb : ∀ b ∈ (renderJson (encodePaymentRequirement r)).map Char.toNat, b < 256 := by
    intro b hbm
    obtain ⟨c, hc, rfl⟩ := List.mem_map.mp hbm
    exact render_ascii _ hjv c hc
  have hmap : (((renderJson (encodePaymentRequirement r)).map Char.toNat).map Char.ofNat)
      = renderJson (encodePaymentRequirement r) := by
    rw [List.map_map]
    have hcomp : (Char.ofNat ∘ Char.toNat) = id := funext Char.ofNat_toNat
    rw [hcomp, List.map_id]
  rw [ParsePaymentRequired]
  rw [show (⟨encodeB64 ((renderJson (encodePaymentRequirement r)).map Char.toNat)⟩ :
      String).data = encodeB64 ((renderJson (encodePaymentRequirement r)).map Char.toNat)
    from rfl]
  rw [decodeB64_encodeB64 _ hb]
  show (match (do
      let j ← jsonUnmarshal
        (((renderJson (encodePaymentRequirement r)).map Char.toNat).map Char.ofNat)
      decodePaymentRequirementInto default j : Except String PaymentRequirement) with
    | Except.error e => Except.error ("failed to parse payment required: " ++ e)
    | Except.ok req => Except.ok req) = Except.ok r
  rw [hmap]
  rw [show (do
      let j ← jsonUnmarshal (renderJson (encodePaymentRequirement r))
      decodePaymentRequirementInto default j : Except String PaymentRequirement) =
    decodePaymentRequirementInto default (encodePaymentRequirement r) from by
      rw [jsonUnmarshal_render _ hjv]
      rfl]
  rw [decode_encode_requirement r hv]

/-- Witness for C8 at the concrete requirement `reqR`, whose validity the
kernel checks by evaluation. -/
theorem C8_roundtrip_witness :
    reqValid reqR = true ∧
    ParsePaymentRequired
      ⟨encodeB64 ((renderJson (encodePaymentRequirement reqR)).map Char.toNat)⟩ = .ok reqR :=
  ⟨by decide, C8_roundtrip reqR (by decide)⟩

end BlockRun
